import Mathlib

/-!
Verification development for the PSX ETL transform service
(`services/transform/app.py`).

The Python service is embedded shallowly:

* Python `float` values flowing through the pipeline are modelled as exact
  rational numbers (`ℚ`).  Where IEEE special values (`nan`, `inf`) are
  observable — in `safe_float` and `ensure_json_serializable` — a dedicated
  type `PyF` with explicit `nan`/`inf` constructors is used.
* Arithmetic on `ℚ` is written with the helpers `qadd`, `qsub`, `qmul`,
  `qdiv`, `qsum`, `qfloor` below.  They are provably equal to the usual
  field operations (see `qadd_eq` …) but are built from `mkRat`, so that
  closed pipeline runs reduce inside the kernel (the library `Rat.add` &c.
  are irreducible).
* Python strings are Lean `String`s; the handful of string operations the
  service performs (`strip`, `upper`, membership of `"T"`, `endswith("Z")`,
  lexicographic comparison for sorting) are defined on the underlying
  character lists, restricted to ASCII, which covers every value the
  service manipulates (tickers, ISO dates).
-/

/-! ### Kernel-reducible rational arithmetic -/

/-- Addition on `ℚ`, defined through `mkRat` so that it reduces in the
kernel.  Provably equal to `+` (`qadd_eq`). -/
def qadd (a b : ℚ) : ℚ := mkRat (a.num * b.den + b.num * a.den) (a.den * b.den)

/-- Subtraction on `ℚ` through `mkRat`; equal to `-` (`qsub_eq`). -/
def qsub (a b : ℚ) : ℚ := mkRat (a.num * b.den - b.num * a.den) (a.den * b.den)

/-- Multiplication on `ℚ` through `mkRat`; equal to `*` (`qmul_eq`). -/
def qmul (a b : ℚ) : ℚ := mkRat (a.num * b.num) (a.den * b.den)

/-- Division on `ℚ` through `mkRat`; equal to `/` (`qdiv_eq`), in
particular `qdiv a 0 = 0`.  Division by zero only ever happens in the
embedding where the Python code would produce `nan`/`inf`; every such spot
is guarded explicitly at its use site. -/
def qdiv (a b : ℚ) : ℚ :=
  if b.num < 0 then mkRat (-(a.num * b.den)) (a.den * b.num.natAbs)
  else mkRat (a.num * b.den) (a.den * b.num.natAbs)

/-- The integer `n` as a rational, through `mkRat`. -/
def qint (n : ℤ) : ℚ := mkRat n 1

/-- Floor of a rational, through `Int.fdiv`; equal to `⌊·⌋` (`qfloor_eq`). -/
def qfloor (q : ℚ) : ℤ := q.num.fdiv q.den

/-- Sum of a list of rationals through `qadd`; equal to `List.sum`. -/
def qsum : List ℚ → ℚ
  | [] => 0
  | a :: l => qadd a (qsum l)

theorem qadd_eq (a b : ℚ) : qadd a b = a + b := by
  have ha : ((a.den : ℚ)) ≠ 0 := by positivity
  have hb : ((b.den : ℚ)) ≠ 0 := by positivity
  rw [qadd, Rat.mkRat_eq_div]
  push_cast
  conv_rhs => rw [← Rat.num_div_den a, ← Rat.num_div_den b]
  rw [div_add_div _ _ ha hb]
  congr 1
  ring

theorem qsub_eq (a b : ℚ) : qsub a b = a - b := by
  have ha : ((a.den : ℚ)) ≠ 0 := by positivity
  have hb : ((b.den : ℚ)) ≠ 0 := by positivity
  rw [qsub, Rat.mkRat_eq_div]
  push_cast
  conv_rhs => rw [← Rat.num_div_den a, ← Rat.num_div_den b]
  rw [div_sub_div _ _ ha hb]
  congr 1
  ring

theorem qmul_eq (a b : ℚ) : qmul a b = a * b := by
  have ha : ((a.den : ℚ)) ≠ 0 := by positivity
  have hb : ((b.den : ℚ)) ≠ 0 := by positivity
  rw [qmul, Rat.mkRat_eq_div]
  push_cast
  conv_rhs => rw [← Rat.num_div_den a, ← Rat.num_div_den b]
  rw [div_mul_div_comm]

theorem qdiv_eq (a b : ℚ) : qdiv a b = a / b := by
  rw [qdiv, Rat.div_def']
  rcases lt_or_le b.num 0 with h | h
  · rw [if_pos h, Rat.mkRat_eq_divInt]
    have habs : (↑(a.den * b.num.natAbs) : ℤ) = -(↑a.den * b.num) := by
      push_cast
      rw [abs_of_neg h]
      ring
    rw [habs, Rat.neg_divInt_neg]
  · rw [if_neg (not_lt.mpr h), Rat.mkRat_eq_divInt]
    congr 1
    push_cast [Int.natAbs_of_nonneg h]
    ring

theorem qint_eq (n : ℤ) : qint n = (n : ℚ) := by
  rw [qint, Rat.mkRat_eq_div]
  simp

theorem qfloor_eq (q : ℚ) : qfloor q = ⌊q⌋ := by
  rw [qfloor, Rat.floor_def, Int.fdiv_eq_ediv _ (by positivity)]

theorem qsum_eq (l : List ℚ) : qsum l = l.sum := by
  induction l with
  | nil => rfl
  | cons a l ih => rw [qsum, qadd_eq, ih, List.sum_cons]

/-- Python `round(x, 4)` rounds half to even.  `rheZ x` is the integer
nearest to `x`, ties to the even integer. -/
def rheZ (x : ℚ) : ℤ :=
  let f := qfloor x
  let fr := qsub x (qint f)
  if fr < mkRat 1 2 then f
  else if mkRat 1 2 < fr then f + 1
  else if f % 2 = 0 then f else f + 1

/-- Python `round(x, 4)`: round half to even at the fourth decimal.
(The binary-float idealisation: the Python code rounds the decimal value
of an IEEE double; we round the exact rational.) -/
def pyRound4 (q : ℚ) : ℚ := mkRat (rheZ (qmul q 10000)) 10000

theorem rheZ_eq (x : ℚ) :
    rheZ x =
      if x - ⌊x⌋ < 1/2 then ⌊x⌋
      else if 1/2 < x - ⌊x⌋ then ⌊x⌋ + 1
      else if ⌊x⌋ % 2 = 0 then ⌊x⌋ else ⌊x⌋ + 1 := by
  have h12 : (mkRat 1 2 : ℚ) = 1/2 := by rw [Rat.mkRat_eq_div]; norm_num
  rw [rheZ]
  simp only [qfloor_eq, qsub_eq, qint_eq, h12]

theorem rheZ_ge_floor (x : ℚ) : ⌊x⌋ ≤ rheZ x := by
  rw [rheZ_eq]
  split_ifs <;> omega

theorem rheZ_le_floor_add_one (x : ℚ) : rheZ x ≤ ⌊x⌋ + 1 := by
  rw [rheZ_eq]
  split_ifs <;> omega

theorem rheZ_mono {x y : ℚ} (h : x ≤ y) : rheZ x ≤ rheZ y := by
  rcases lt_or_le ⌊x⌋ ⌊y⌋ with hf | hf
  · calc rheZ x ≤ ⌊x⌋ + 1 := rheZ_le_floor_add_one x
    _ ≤ ⌊y⌋ := by omega
    _ ≤ rheZ y := rheZ_ge_floor y
  · have hfe : ⌊y⌋ = ⌊x⌋ := le_antisymm hf (Int.floor_le_floor h)
    have hfr : x - ⌊x⌋ ≤ y - ⌊y⌋ := by rw [hfe]; linarith
    rw [rheZ_eq, rheZ_eq, hfe]
    split_ifs <;> first | omega | linarith

theorem rheZ_intCast (n : ℤ) : rheZ (n : ℚ) = n := by
  rw [rheZ_eq]
  simp

theorem pyRound4_def (q : ℚ) : pyRound4 q = (rheZ (q * 10000) : ℚ) / 10000 := by
  rw [pyRound4, qmul_eq, Rat.mkRat_eq_div]
  norm_num

theorem pyRound4_mono {x y : ℚ} (h : x ≤ y) : pyRound4 x ≤ pyRound4 y := by
  rw [pyRound4_def, pyRound4_def]
  have := @rheZ_mono (x * 10000) (y * 10000) (by nlinarith)
  have hc : ((rheZ (x * 10000) : ℚ)) ≤ (rheZ (y * 10000) : ℚ) := by exact_mod_cast this
  linarith

theorem pyRound4_nonneg {q : ℚ} (h : 0 ≤ q) : 0 ≤ pyRound4 q := by
  rw [pyRound4_def]
  have h1 : (0:ℤ) ≤ ⌊q * 10000⌋ := by positivity
  have h2 : (0:ℤ) ≤ rheZ (q * 10000) := le_trans h1 (rheZ_ge_floor _)
  have : (0:ℚ) ≤ (rheZ (q * 10000) : ℚ) := by exact_mod_cast h2
  linarith

theorem pyRound4_intCast (n : ℤ) : pyRound4 (n : ℚ) = n := by
  rw [pyRound4_def]
  have : ((n : ℚ)) * 10000 = ((n * 10000 : ℤ) : ℚ) := by push_cast; ring
  rw [this, rheZ_intCast]
  push_cast
  ring

/-- Every `pyRound4` output is an integer multiple of `1/10000`, hence a
fixed point of `pyRound4`. -/
theorem pyRound4_idem (q : ℚ) : pyRound4 (pyRound4 q) = pyRound4 q := by
  rw [pyRound4_def q, pyRound4_def]
  have h : ((rheZ (q * 10000) : ℚ)) / 10000 * 10000 = ((rheZ (q * 10000) : ℤ) : ℚ) := by
    field_simp
  rw [h, rheZ_intCast]

/-! ### ASCII string operations used by the service -/

/-- Python `str.strip` whitespace test, restricted to ASCII whitespace. -/
def pyWs (c : Char) : Bool := c == ' ' || c == '\t' || c == '\n' || c == '\r'

/-- Python `str.strip()` (ASCII whitespace). -/
def pyStrip (s : String) : String :=
  ⟨(((s.data.dropWhile pyWs).reverse.dropWhile pyWs).reverse : List Char)⟩

/-- Python `str.upper()` (ASCII letters; tickers only contain those). -/
def pyUpper (s : String) : String := ⟨s.data.map Char.toUpper⟩

/-- The regex test `re.match(r'^[A-Z]{1,5}$', ticker)` together with the
preceding `not ticker` truthiness test: nonempty, at most five chars, all
in `A`–`Z`. -/
def tickerMatch (s : String) : Bool :=
  decide (1 ≤ s.data.length) && decide (s.data.length ≤ 5) &&
    s.data.all (fun c => decide ('A' ≤ c) && decide (c ≤ 'Z'))

/-- Python `"T" in date_str`. -/
def containsT (s : String) : Bool := s.data.contains 'T'

/-- Python `date_str.endswith("Z")`. -/
def endsWithZ (s : String) : Bool := s.data.getLast? == some 'Z'

/-- Python string `<=` (code-point lexicographic). -/
def lexLe : List Char → List Char → Bool
  | [], _ => true
  | _ :: _, [] => false
  | a :: as, b :: bs => if a < b then true else if b < a then false else lexLe as bs

/-! ### A stable sort (Python `list.sort` is stable; a stable sort
w.r.t. a total preorder is unique, so insertion sort reproduces it). -/

def pyInsert {α : Type} (le : α → α → Bool) (a : α) : List α → List α
  | [] => [a]
  | b :: l => if le a b then a :: b :: l else b :: pyInsert le a l

def pySort {α : Type} (le : α → α → Bool) : List α → List α
  | [] => []
  | a :: l => pyInsert le a (pySort le l)

theorem pyInsert_perm {α : Type} (le : α → α → Bool) (a : α) (l : List α) :
    (pyInsert le a l).Perm (a :: l) := by
  induction l with
  | nil => rfl
  | cons b l ih =>
    rw [pyInsert]
    split
    · exact List.Perm.refl _
    · exact ((ih.cons b).trans (List.Perm.swap a b l))

theorem pySort_perm {α : Type} (le : α → α → Bool) (l : List α) :
    (pySort le l).Perm l := by
  induction l with
  | nil => rfl
  | cons a l ih => exact (pyInsert_perm le a (pySort le l)).trans (ih.cons a)

theorem mem_pySort {α : Type} {le : α → α → Bool} {l : List α} {x : α} :
    x ∈ pySort le l ↔ x ∈ l :=
  (pySort_perm le l).mem_iff

theorem length_pySort {α : Type} (le : α → α → Bool) (l : List α) :
    (pySort le l).length = l.length :=
  (pySort_perm le l).length_eq

/-! ### Data model -/

/-- `TransformConfig` dataclass (`app.py` lines 13–29) with its defaults. -/
structure TransformConfig where
  enable_technical_indicators : Bool := true
  enable_sector_analysis : Bool := true
  enable_risk_metrics : Bool := true
  ma_short_period : ℕ := 7
  ma_long_period : ℕ := 30
  volatility_window : ℕ := 30
  rsi_period : ℕ := 14
  max_batch_size : ℕ := 100
  enable_parallel_processing : Bool := true
  cache_results : Bool := true
  deriving DecidableEq, Repr

/-- The module-level `config = TransformConfig()` object. -/
def defaultConfig : TransformConfig := {}

/-- A JSON value sitting in a numeric-typed field of a raw record:
either a number or `null` (string payloads in numeric fields are outside
the model). -/
inductive JNum where
  | num (q : ℚ)
  | null
  deriving DecidableEq, Repr

/-- Python `float(v)`: numbers convert, `None` raises `TypeError`
(modelled as `none`). -/
def pyFloat : JNum → Option ℚ
  | .num q => some q
  | .null => none

/-- Python `int(v)`: truncation toward zero for numbers, `TypeError` on
`None`. -/
def pyInt : JNum → Option ℤ
  | .num q => some (if 0 ≤ q.num then q.num.fdiv (q.den : ℤ) else -((-q.num).fdiv (q.den : ℤ)))
  | .null => none

/-- A raw input record (one element of `raw_data`).  `none` throughout
means the key is absent.  For `sector`/`industry` the inner `Option`
distinguishes a JSON `null` (`none`) from a string.  For the remaining
company attributes the code only ever reads them with `record.get(key)`,
which collapses "absent" and `null` to `None`, so a single `Option`
suffices. -/
structure RawRecord where
  Ticker : Option String := none
  Date : Option String := none
  Open : Option JNum := none
  High : Option JNum := none
  Low : Option JNum := none
  Close : Option JNum := none
  Volume : Option JNum := none
  Dividend : Option JNum := none
  sector : Option (Option String) := none
  industry : Option (Option String) := none
  marketCap : Option ℚ := none
  trailingPE : Option ℚ := none
  forwardPE : Option ℚ := none
  dividendYield : Option ℚ := none
  dividendRate : Option ℚ := none
  averageVolume : Option ℚ := none
  previousClose : Option ℚ := none
  deriving DecidableEq, Repr

/-- The record dict as the pipeline phases mutate it.  Derived fields
start absent; `none` models both "key absent" and "value `None`/`NaN`"
(the two serialise differently only in ways no claim observes; see
`serializeRecord`). -/
structure TRec where
  Ticker : String
  Date : String
  Open : ℚ
  High : ℚ
  Low : ℚ
  Close : ℚ
  Volume : ℤ
  Dividend : ℚ
  industry : Option String
  sector : Option String
  marketCap : Option ℚ := none
  trailingPE : Option ℚ := none
  forwardPE : Option ℚ := none
  dividendYield : Option ℚ := none
  dividendRate : Option ℚ := none
  averageVolume : Option ℚ := none
  previousClose : Option ℚ := none
  Daily_Return : Option ℚ := none
  Price_Range : Option ℚ := none
  Typical_Price : Option ℚ := none
  Relative_Volume : Option ℚ := none
  Volume_Weighted_Price : Option ℚ := none
  PE_Growth : Option ℚ := none
  Market_Cap_Category : Option String := none
  MA_7 : Option ℚ := none
  MA_30 : Option ℚ := none
  Volatility_7 : Option ℚ := none
  Volatility_30 : Option ℚ := none
  Price_Change_Pct : Option ℚ := none
  Price_vs_MA7 : Option ℚ := none
  Price_vs_MA30 : Option ℚ := none
  Volume_MA_7 : Option ℚ := none
  Volume_Trend : Option ℚ := none
  RSI_14 : Option ℚ := none
  Sector_Relative_Performance : Option ℚ := none
  Sector_Avg_Return : Option ℚ := none
  Industry_Relative_Performance : Option ℚ := none
  Industry_Avg_Return : Option ℚ := none
  PE_vs_Sector_Avg : Option ℚ := none
  Max_Drawdown : Option ℚ := none
  Sharpe_Ratio : Option ℚ := none
  Value_at_Risk_5 : Option ℚ := none
  Return_Skewness : Option ℚ := none
  Return_Kurtosis : Option ℚ := none
  transformation_timestamp : Option String := none
  transformation_version : Option String := none
  deriving DecidableEq, Repr

/-! ### Phase 1 — `clean_and_standardize` (lines 218–284) -/

/-- The date normalisation block (lines 248–257): empty string kept
(falsy `if date_str:`), else append `T00:00:00Z` when no `T`,
else append `Z` when not ending in `Z`. -/
def normalizeDate (s : String) : String :=
  if s == "" then s
  else if containsT s = false then s ++ "T00:00:00Z"
  else if endsWithZ s = false then s ++ "Z"
  else s

/-- `str(record.get("Ticker", "")).strip().upper()` (line 229). -/
def cleanTicker (r : RawRecord) : String := pyUpper (pyStrip (r.Ticker.getD ""))

/-- One iteration of the cleaning loop: `none` means the record was
skipped (`continue`), either by an explicit validation check or by the
`except (ValueError, TypeError, KeyError)` around the conversions. -/
def cleanRecord (r : RawRecord) : Option TRec :=
  match r.Open, r.High, r.Low, r.Close, r.Volume with
  | some vo, some vh, some vl, some vc, some vv =>
    if tickerMatch (cleanTicker r) = false then none
    else
      match pyFloat vo, pyFloat vh, pyFloat vl, pyFloat vc, pyInt vv with
      | some o, some h, some l, some c, some v =>
        if o ≤ 0 ∨ h ≤ 0 ∨ l ≤ 0 ∨ c ≤ 0 then none
        else if v < 0 then none
        else if ¬(l ≤ o ∧ o ≤ h ∧ l ≤ c ∧ c ≤ h) then none
        else
          match (match r.Dividend with | none => some 0 | some dv => pyFloat dv) with
          | some dvd =>
            some { Ticker := cleanTicker r,
                   Date := normalizeDate (r.Date.getD ""),
                   Open := pyRound4 o, High := pyRound4 h,
                   Low := pyRound4 l, Close := pyRound4 c,
                   Volume := v, Dividend := dvd,
                   industry := r.industry.getD (some ""),
                   sector := r.sector.getD (some ""),
                   marketCap := r.marketCap, trailingPE := r.trailingPE,
                   forwardPE := r.forwardPE, dividendYield := r.dividendYield,
                   dividendRate := r.dividendRate, averageVolume := r.averageVolume,
                   previousClose := r.previousClose }
          | none => none
      | _, _, _, _, _ => none
  | _, _, _, _, _ => none

/-- Phase 1: `clean_and_standardize`. -/
def clean_and_standardize (raw : List RawRecord) : List TRec :=
  raw.filterMap cleanRecord

/-! ### Phase 1 — `calculate_basic_metrics` (lines 286–319) -/

/-- The per-record body of `calculate_basic_metrics`. -/
def basicMetrics (r : TRec) : TRec :=
  let typical := pyRound4 (qdiv (qadd (qadd r.High r.Low) r.Close) 3)
  { r with
    Daily_Return :=
      some (if 0 < r.Open then pyRound4 (qmul (qdiv (qsub r.Close r.Open) r.Open) 100) else 0),
    Price_Range := some (pyRound4 (qsub r.High r.Low)),
    Typical_Price := some typical,
    Relative_Volume :=
      some (match r.averageVolume with
        | some av => if av ≠ 0 ∧ 0 < av then pyRound4 (qdiv (qint r.Volume) av) else 1
        | none => 1),
    Volume_Weighted_Price :=
      if typical ≠ 0 then some (pyRound4 (qmul typical (qint r.Volume))) else none,
    PE_Growth :=
      match r.trailingPE, r.forwardPE with
      | some tp, some fp => if tp ≠ 0 ∧ fp ≠ 0 then some (pyRound4 (qsub tp fp)) else none
      | _, _ => none,
    Market_Cap_Category :=
      match r.marketCap with
      | some mc =>
        if mc ≠ 0 then
          some (if mc < 2000000000 then "Small" else if mc < 10000000000 then "Mid" else "Large")
        else none
      | none => none }

def calculate_basic_metrics (l : List TRec) : List TRec := l.map basicMetrics

/-! ### Grouping by ticker -/

/-- Ticker keys in order of first appearance (`defaultdict` insertion
order — Python dicts iterate in insertion order). -/
def firstKeys : List TRec → List String
  | [] => []
  | r :: rs => r.Ticker :: (firstKeys rs).filter (fun k => k != r.Ticker)

/-- Python `<=` on strings, used as the (stable) sort order of
`ticker_records.sort(key=lambda x: x["Date"])`. -/
def dateLe (a b : TRec) : Bool := lexLe a.Date.data b.Date.data

/-- The date-sorted series of records of ticker `k`; both the
time-series engine (lines 323–330) and the risk engine (lines 482–490)
group and sort like this. -/
def tickerSeries (l : List TRec) (k : String) : List TRec :=
  pySort dateLe (l.filter (fun r => r.Ticker == k))

/-! ### Phase 2 — `calculate_time_series_metrics` (lines 321–410) -/

/-- The trailing `pandas.rolling(window=w)` window at row `i`: the last
`min (i+1) w` values up to and including position `i`. -/
def window (xs : List ℚ) (w i : ℕ) : List ℚ := (xs.take (i+1)).drop (i+1-w)

/-- Arithmetic mean. -/
def qmean (xs : List ℚ) : ℚ := qdiv (qsum xs) (qint xs.length)

/-- Sample variance (pandas `std` uses `ddof = 1`), i.e. the square of the
standard deviation.  The standard deviation itself is irrational in
general; the embedding stores the variance (a strictly monotone encoding
of it on the nonnegative reals — no claim inspects the stored value, only
whether it is null). -/
def sampleVar (xs : List ℚ) : ℚ :=
  qdiv (qsum (xs.map (fun x => qmul (qsub x (qmean xs)) (qsub x (qmean xs)))))
    (qint ((xs.length : ℤ) - 1))

def closesOf (g : List TRec) : List ℚ := g.map (·.Close)

def volumesOf (g : List TRec) : List ℚ := g.map (fun r => qint r.Volume)

/-- `df["Daily_Return_Decimal"] = df["Daily_Return"] / 100` (line 364).
`Daily_Return` is always set by `calculate_basic_metrics` before this
phase runs, so the `getD` default is dead code. -/
def dretOf (g : List TRec) : List ℚ := g.map (fun r => qdiv (r.Daily_Return.getD 0) 100)

/-- `df["Close"].diff()` at row `i` (`0` stands for the leading `NaN`,
which `delta.where(delta > 0, 0)` turns into `0`). -/
def diffAt (cs : List ℚ) (i : ℕ) : ℚ := qsub (cs.getD i 0) (cs.getD (i-1) 0)

/-- `delta.where(delta > 0, 0)` at row `i`: the gain series (row 0 is `0`
because `NaN > 0` is false). -/
def gainAt (cs : List ℚ) (i : ℕ) : ℚ :=
  if i = 0 then 0 else if 0 < diffAt cs i then diffAt cs i else 0

/-- `-delta.where(delta < 0, 0)` at row `i`: the loss series. -/
def lossAt (cs : List ℚ) (i : ℕ) : ℚ :=
  if i = 0 then 0 else if diffAt cs i < 0 then qsub 0 (diffAt cs i) else 0

/-- `gain.rolling(window=p, min_periods=p).mean()` at row `i` (only used
when `p ≤ i + 1`; the gain series has no `NaN`, so the window is full
exactly then). -/
def avgGain (p : ℕ) (cs : List ℚ) (i : ℕ) : ℚ :=
  qdiv (qsum ((List.range p).map (fun j => gainAt cs (i - j)))) (qint p)

def avgLoss (p : ℕ) (cs : List ℚ) (i : ℕ) : ℚ :=
  qdiv (qsum ((List.range p).map (fun j => lossAt cs (i - j)))) (qint p)

/-- The `RSI_14` column value at row `i` of a series of length `n` with
close prices `cs` (lines 383–391 plus the `safe_float` conversion at
line 403).  `none` models `NaN`.  When `avg_loss = 0` and
`avg_gain ≠ 0`, `rs = ±inf` and `100 - 100/(1 + rs)` is exactly `100`;
when both are `0`, `rs = 0/0 = NaN`. -/
def rsiCol (cfg : TransformConfig) (n : ℕ) (cs : List ℚ) (i : ℕ) : Option ℚ :=
  if cfg.enable_technical_indicators = false ∨ n < cfg.rsi_period then none
  else if i + 1 < cfg.rsi_period then none
  else if avgLoss cfg.rsi_period cs i = 0 then
    (if avgGain cfg.rsi_period cs i = 0 then none else some 100)
  else some (pyRound4 (qsub 100 (qdiv 100 (qadd 1
    (qdiv (avgGain cfg.rsi_period cs i) (avgLoss cfg.rsi_period cs i))))))

/-- `MA_7` column (`rolling(window=ma_short, min_periods=1).mean()`,
line 357), after `safe_float`. -/
def ma7Col (cfg : TransformConfig) (cs : List ℚ) (i : ℕ) : Option ℚ :=
  some (pyRound4 (qmean (window cs cfg.ma_short_period i)))

/-- `MA_30` column (lines 358–361): the full-window rolling mean when the
series is long enough, else a column of `None`. -/
def ma30Col (cfg : TransformConfig) (n : ℕ) (cs : List ℚ) (i : ℕ) : Option ℚ :=
  if n < cfg.ma_long_period then none
  else if i + 1 < cfg.ma_long_period then none
  else some (pyRound4 (qmean (window cs cfg.ma_long_period i)))

/-- `Volatility_7` column (line 365, `min_periods=2`); stores the sample
variance, see `sampleVar`. -/
def vol7Col (cfg : TransformConfig) (ds : List ℚ) (i : ℕ) : Option ℚ :=
  if (window ds cfg.ma_short_period i).length < 2 then none
  else some (sampleVar (window ds cfg.ma_short_period i))

/-- `Volatility_30` column (lines 366–369, full window required). -/
def vol30Col (cfg : TransformConfig) (n : ℕ) (ds : List ℚ) (i : ℕ) : Option ℚ :=
  if n < cfg.volatility_window then none
  else if i + 1 < cfg.volatility_window then none
  else some (sampleVar (window ds cfg.volatility_window i))

/-- `Price_Change_Pct` column (lines 372–373): day-over-day change, `NaN`
at row 0 (no previous close) and on division by a zero previous close. -/
def priceChangeCol (cs : List ℚ) (i : ℕ) : Option ℚ :=
  if i = 0 then none
  else if cs.getD (i-1) 0 = 0 then none
  else some (pyRound4 (qmul (qdiv (qsub (cs.getD i 0) (cs.getD (i-1) 0)) (cs.getD (i-1) 0)) 100))

/-- `Price_vs_MA7` column (line 376); the unrounded rolling mean is used
in the division.  A zero mean (all closes in the window rounded down to
`0`) makes the Python expression `NaN`/`inf`, hence `None`. -/
def priceVsMa7Col (cfg : TransformConfig) (cs : List ℚ) (i : ℕ) : Option ℚ :=
  let m := qmean (window cs cfg.ma_short_period i)
  if m = 0 then none
  else some (pyRound4 (qmul (qdiv (qsub (cs.getD i 0) m) m) 100))

/-- `Price_vs_MA30` column (line 377): `None` wherever `MA_30` is. -/
def priceVsMa30Col (cfg : TransformConfig) (n : ℕ) (cs : List ℚ) (i : ℕ) : Option ℚ :=
  if n < cfg.ma_long_period then none
  else if i + 1 < cfg.ma_long_period then none
  else
    let m := qmean (window cs cfg.ma_long_period i)
    if m = 0 then none
    else some (pyRound4 (qmul (qdiv (qsub (cs.getD i 0) m) m) 100))

/-- `Volume_MA_7` column (line 380, `min_periods=1`). -/
def volumeMa7Col (cfg : TransformConfig) (vs : List ℚ) (i : ℕ) : Option ℚ :=
  some (pyRound4 (qmean (window vs cfg.ma_short_period i)))

/-- `Volume_Trend` column (line 381); zero mean volume gives `NaN`. -/
def volumeTrendCol (cfg : TransformConfig) (vs : List ℚ) (i : ℕ) : Option ℚ :=
  let m := qmean (window vs cfg.ma_short_period i)
  if m = 0 then none
  else some (pyRound4 (qmul (qdiv (qsub (vs.getD i 0) m) m) 100))

/-- The `record.update({... : None})` block for short series
(lines 338–354). -/
def tsNone (r : TRec) : TRec :=
  { r with MA_7 := none, MA_30 := none, Volatility_7 := none, Volatility_30 := none,
           Price_Change_Pct := none, Price_vs_MA7 := none, Price_vs_MA30 := none,
           Volume_MA_7 := none, Volume_Trend := none, RSI_14 := none }

/-- Row `i` of the enriched DataFrame converted back to a dict
(lines 393–408): every derived column goes through `safe_float`, all
other keys keep their values. -/
def tsSet (cfg : TransformConfig) (g : List TRec) (i : ℕ) (r : TRec) : TRec :=
  { r with
    MA_7 := ma7Col cfg (closesOf g) i,
    MA_30 := ma30Col cfg g.length (closesOf g) i,
    Volatility_7 := vol7Col cfg (dretOf g) i,
    Volatility_30 := vol30Col cfg g.length (dretOf g) i,
    Price_Change_Pct := priceChangeCol (closesOf g) i,
    Price_vs_MA7 := priceVsMa7Col cfg (closesOf g) i,
    Price_vs_MA30 := priceVsMa30Col cfg g.length (closesOf g) i,
    Volume_MA_7 := volumeMa7Col cfg (volumesOf g) i,
    Volume_Trend := volumeTrendCol cfg (volumesOf g) i,
    RSI_14 := rsiCol cfg g.length (closesOf g) i }

/-- The per-ticker body of `calculate_time_series_metrics`: either the
`len(df) < ma_short_period` null branch or the column computations, on
the date-sorted series `g`. -/
def tsEnrich (cfg : TransformConfig) (g : List TRec) : List TRec :=
  if g.length < cfg.ma_short_period then g.map tsNone
  else g.mapIdx (fun i r => tsSet cfg g i r)

/-- Phase 2: `calculate_time_series_metrics`. -/
def calculate_time_series_metrics (cfg : TransformConfig) (l : List TRec) : List TRec :=
  (firstKeys l).flatMap (fun k => tsEnrich cfg (tickerSeries l k))

/-! ### Phase 3 — `calculate_sector_analysis` (lines 412–474) -/

/-- The `Daily_Return` values collected for group key `s` (lines
421–428).  The record contributes unless its group value is the literal
string `"Unknown"` or its `Daily_Return` is `None`.  (The cleaning phase
stores `""` for a missing attribute and `None` for a JSON null; both are
different from `"Unknown"`, so both contribute.)  `f` selects the sector
or the industry attribute. -/
def groupContributions (f : TRec → Option String) (l : List TRec) (s : Option String) :
    List ℚ :=
  if s = some "Unknown" then []
  else l.filterMap (fun r => if f r = s then r.Daily_Return else none)

/-- `sector_avg_returns[s]` (lines 430–440): present iff the group has a
key, i.e. collected at least one return. -/
def groupAvg (f : TRec → Option String) (l : List TRec) (s : Option String) : Option ℚ :=
  let rs := groupContributions f l s
  if rs.isEmpty = true then none else some (qmean rs)

/-- `[r.get("trailingPE") for r in records if r.get("sector") == sector
and r.get("trailingPE")]` (line 465). -/
def sectorPEs (l : List TRec) (s : Option String) : List ℚ :=
  l.filterMap (fun r =>
    if r.sector = s then
      match r.trailingPE with
      | some pe => if pe ≠ 0 then some pe else none
      | none => none
    else none)

/-- The per-record body of the annotation loop (lines 443–473). -/
def sectorSet (l : List TRec) (r : TRec) : TRec :=
  let srp := match groupAvg (fun x => x.sector) l r.sector, r.Daily_Return with
    | some m, some dr => (some (pyRound4 (qsub dr m)), some (pyRound4 m))
    | _, _ => ((none : Option ℚ), (none : Option ℚ))
  let irp := match groupAvg (fun x => x.industry) l r.industry, r.Daily_Return with
    | some m, some dr => (some (pyRound4 (qsub dr m)), some (pyRound4 m))
    | _, _ => ((none : Option ℚ), (none : Option ℚ))
  let pe := match r.trailingPE with
    | some tp =>
      if tp ≠ 0 ∧ (groupContributions (fun x => x.sector) l r.sector).isEmpty = false then
        let pes := sectorPEs l r.sector
        if pes.isEmpty = true then none
        else if 0 < qmean pes then some (pyRound4 (qdiv tp (qmean pes))) else none
      else none
    | none => none
  { r with Sector_Relative_Performance := srp.1, Sector_Avg_Return := srp.2,
           Industry_Relative_Performance := irp.1, Industry_Avg_Return := irp.2,
           PE_vs_Sector_Avg := pe }

/-- Phase 3: `calculate_sector_analysis`. -/
def calculate_sector_analysis (cfg : TransformConfig) (l : List TRec) : List TRec :=
  if cfg.enable_sector_analysis = false then l else l.map (sectorSet l)

/-! ### Phase 4 — `calculate_risk_metrics` (lines 476–542) -/

/-- `returns = df["Daily_Return"].dropna() / 100` (line 508). -/
def riskReturns (g : List TRec) : List ℚ :=
  (g.filterMap (fun r => r.Daily_Return)).map (fun d => qdiv d 100)

/-- The drawdown series (lines 510–512): walking the return list while
maintaining the cumulative product `cum` and its running maximum `mx`;
`none` is the `NaN`/`inf` produced when the running maximum is zero. -/
def drawdownAux : List ℚ → ℚ → ℚ → List (Option ℚ)
  | [], _, _ => []
  | r :: rest, cum, mx =>
    let c := qmul cum (qadd 1 r)
    let m := if mx < c then c else mx
    (if m = 0 then none else some (qdiv (qsub c m) m)) :: drawdownAux rest c m

/-- `(cumulative_returns - rolling_max) / rolling_max` for the whole
series. -/
def drawdowns (rs : List ℚ) : List (Option ℚ) :=
  match rs with
  | [] => []
  | r :: rest =>
    let c := qadd 1 r
    (if c = 0 then none else some 0) :: drawdownAux rest c c

/-- pandas `.min()` skips `NaN` and is `NaN` when nothing remains. -/
def optMin : List (Option ℚ) → Option ℚ
  | [] => none
  | none :: l => optMin l
  | some q :: l =>
    match optMin l with
    | none => some q
    | some m => some (if q < m then q else m)

/-- Python ceiling, for `np.percentile`. -/
def qceil (x : ℚ) : ℤ := -(qfloor (qsub 0 x))

/-- `np.percentile(returns, 5)` (line 522): linear interpolation between
order statistics at fractional index `(n-1)·5/100`. -/
def percentile5 (rs : List ℚ) : ℚ :=
  let s := pySort (fun a b : ℚ => decide (a ≤ b)) rs
  let h := qdiv (qmul (qint ((rs.length : ℤ) - 1)) 5) 100
  let lo := (qfloor h).toNat
  let flo := s.getD lo 0
  let fhi := s.getD (qceil h).toNat 0
  qadd flo (qmul (qsub h (qint (qfloor h))) (qsub fhi flo))

/-- Sign-preserving square `x ↦ x·|x|`, the strictly monotone bijection
used to store irrational statistics as rationals. -/
def signSq (x : ℚ) : ℚ := if x < 0 then qsub 0 (qmul x x) else qmul x x

/-- `returns.mean() / returns.std() * np.sqrt(252)` when the std is
positive, else `0` (lines 516–519).  The value is irrational (`√252` and
the std); the field stores its image under `signSq`, i.e.
`sign(mean)·mean²·252/variance` — claims only check nullness. -/
def sharpeEnc (rs : List ℚ) : ℚ :=
  if 0 < sampleVar rs then
    let m := qmean rs
    let e := qdiv (qmul (qmul m m) 252) (sampleVar rs)
    if m < 0 then qsub 0 e else e
  else 0

/-- pandas `Series.skew()` (`nanskew`): `0` when the second central
moment sum `m₂` vanishes, else `count·√(count−1)/(count−2) · m₃/m₂^{3/2}`.
Irrational in general; stored via `signSq`, as
`sign(m₃)·count²·(count−1)·m₃²/((count−2)²·m₂³)` — claims only check
nullness. -/
def skewEnc (rs : List ℚ) : ℚ :=
  let n := (rs.length : ℤ)
  let m := qmean rs
  let m2 := qsum (rs.map (fun x => qmul (qsub x m) (qsub x m)))
  let m3 := qsum (rs.map (fun x => qmul (qmul (qsub x m) (qsub x m)) (qsub x m)))
  if m2 = 0 then 0
  else
    let e := qdiv (qmul (qmul (qint (n*n)) (qint (n-1))) (qmul m3 m3))
                  (qmul (qint ((n-2)*(n-2))) (qmul (qmul m2 m2) m2))
    if m3 < 0 then qsub 0 e else e

/-- pandas `Series.kurtosis()` (`nankurt`), which is rational:
`n(n+1)(n−1)·m₄ / ((n−2)(n−3)·m₂²) − 3(n−1)²/((n−2)(n−3))`, and `0` when
the denominator vanishes. -/
def kurtVal (rs : List ℚ) : ℚ :=
  let n := (rs.length : ℤ)
  let m := qmean rs
  let m2 := qsum (rs.map (fun x => qmul (qsub x m) (qsub x m)))
  let m4 := qsum (rs.map (fun x => qmul (qmul (qsub x m) (qsub x m)) (qmul (qsub x m) (qsub x m))))
  if m2 = 0 then 0
  else qsub (qdiv (qmul (qint (n*(n+1)*(n-1))) m4) (qmul (qint ((n-2)*(n-3))) (qmul m2 m2)))
            (qdiv (qint (3*(n-1)*(n-1))) (qint ((n-2)*(n-3))))

/-- The `record.update({... : None})` block for short series
(lines 493–500). -/
def riskNone (r : TRec) : TRec :=
  { r with Max_Drawdown := none, Sharpe_Ratio := none, Value_at_Risk_5 := none,
           Return_Skewness := none, Return_Kurtosis := none }

/-- The `record.update({...})` block with the computed statistics
(lines 531–538), including the `len(returns) > 0` guard (lines 509/527).
The `safe_float` rounding is applied to the rational-valued statistics;
the `signSq`-encoded ones are stored unrounded (their values are never
inspected, only their nullness). -/
def riskSet (g : List TRec) (r : TRec) : TRec :=
  if (riskReturns g).isEmpty = true then riskNone r
  else
    { r with
      Max_Drawdown := (optMin (drawdowns (riskReturns g))).map pyRound4,
      Sharpe_Ratio := some (sharpeEnc (riskReturns g)),
      Value_at_Risk_5 := some (pyRound4 (percentile5 (riskReturns g))),
      Return_Skewness := if 3 ≤ (riskReturns g).length then some (skewEnc (riskReturns g)) else none,
      Return_Kurtosis :=
        if 4 ≤ (riskReturns g).length then some (pyRound4 (kurtVal (riskReturns g))) else none }

/-- The per-ticker body of `calculate_risk_metrics`: the
`len(ticker_records) < 5` null branch or the statistics broadcast. -/
def riskGroup (g : List TRec) : List TRec :=
  if g.length < 5 then g.map riskNone else g.map (riskSet g)

/-- Phase 4: `calculate_risk_metrics`. -/
def calculate_risk_metrics (cfg : TransformConfig) (l : List TRec) : List TRec :=
  if cfg.enable_risk_metrics = false then l
  else (firstKeys l).flatMap (fun k => riskGroup (tickerSeries l k))

/-! ### Numeric safety layer — `safe_float` / `ensure_json_serializable`
(lines 33–68) -/

/-- A Python float: finite (idealised as an exact rational) or one of
the IEEE specials. -/
inductive PyF where
  | fin (q : ℚ)
  | pinf
  | ninf
  | nan
  deriving DecidableEq, Repr

/-- `safe_float(value, default)` (lines 33–51): `None` in, default out;
`NaN`/`±inf` in, default out; finite in, `round(·, 4)` out. -/
def safe_float (v : Option PyF) (default : Option ℚ) : Option ℚ :=
  match v with
  | none => default
  | some (.fin q) => some (pyRound4 q)
  | some _ => default

/-- JSON-like data reaching `ensure_json_serializable`. -/
inductive JData where
  | jnull
  | jint (n : ℤ)
  | jfloat (f : PyF)
  | jstr (s : String)
  | jlist (xs : List JData)
  | jdict (kvs : List (String × JData))

mutual

/-- `ensure_json_serializable` (lines 53–68): recurse through dicts and
lists; ints pass; floats go through `safe_float(·, 0.0)` — so a
`NaN`/`inf` float becomes the float `0.0`, not `None`; `pd.isna(None)`
sends `None` to `None`; everything else passes through. -/
def ensure_json_serializable : JData → JData
  | .jdict kvs => .jdict (ensureKVs kvs)
  | .jlist xs => .jlist (ensureList xs)
  | .jint n => .jint n
  | .jfloat f => .jfloat (.fin ((safe_float (some f) (some 0)).getD 0))
  | .jnull => .jnull
  | .jstr s => .jstr s

/-- The list branch of `ensure_json_serializable`. -/
def ensureList : List JData → List JData
  | [] => []
  | x :: xs => ensure_json_serializable x :: ensureList xs

/-- The dict branch of `ensure_json_serializable`. -/
def ensureKVs : List (String × JData) → List (String × JData)
  | [] => []
  | (k, v) :: kvs => (k, ensure_json_serializable v) :: ensureKVs kvs

end

/-! ### The endpoint — `transform_data` (lines 544–593) -/

structure HTTPError where
  status : ℕ
  detail : String
  deriving DecidableEq, Repr

/-- `str(e)` for an `HTTPException` (starlette renders it as
`f"{status_code}: {detail}"`). -/
def httpStr (e : HTTPError) : String := toString e.status ++ ": " ++ e.detail

/-- The JSON object returned on success (lines 584–590). -/
structure TransformResult where
  success : Bool
  records_processed : ℕ
  records_cleaned : ℕ
  data : List TRec
  timestamp : String
  deriving DecidableEq, Repr

/-- The keys of that JSON object, in construction order. -/
def transformResponseKeys : List String :=
  ["success", "records_processed", "records_cleaned", "data", "timestamp"]

/-- The metadata stamping loop (lines 577–579); `now` is
`datetime.now(timezone.utc).isoformat()`, made an explicit parameter. -/
def stampMeta (now : String) (r : TRec) : TRec :=
  { r with transformation_timestamp := some now,
           transformation_version := some "2.0.0" }

/-- `ensure_json_serializable` specialised to an enriched record dict:
every float goes through `safe_float(·, 0.0)`, i.e. is rounded (every
value present in the embedding is a finite rational; the
`None → NaN → 0.0` DataFrame artefact on absent company attributes of a
pandas round trip is not modelled — no claim observes those fields). -/
def serializeRecord1 (r : TRec) : TRec :=
  { r with
    Open := pyRound4 r.Open, High := pyRound4 r.High, Low := pyRound4 r.Low,
    Close := pyRound4 r.Close, Dividend := pyRound4 r.Dividend,
    marketCap := r.marketCap.map pyRound4, trailingPE := r.trailingPE.map pyRound4,
    forwardPE := r.forwardPE.map pyRound4, dividendYield := r.dividendYield.map pyRound4 }

def serializeRecord2 (r : TRec) : TRec :=
  { r with
    dividendRate := r.dividendRate.map pyRound4, averageVolume := r.averageVolume.map pyRound4,
    previousClose := r.previousClose.map pyRound4,
    Daily_Return := r.Daily_Return.map pyRound4, Price_Range := r.Price_Range.map pyRound4,
    Typical_Price := r.Typical_Price.map pyRound4,
    Relative_Volume := r.Relative_Volume.map pyRound4,
    Volume_Weighted_Price := r.Volume_Weighted_Price.map pyRound4,
    PE_Growth := r.PE_Growth.map pyRound4 }

def serializeRecord3 (r : TRec) : TRec :=
  { r with
    MA_7 := r.MA_7.map pyRound4, MA_30 := r.MA_30.map pyRound4,
    Volatility_7 := r.Volatility_7.map pyRound4, Volatility_30 := r.Volatility_30.map pyRound4,
    Price_Change_Pct := r.Price_Change_Pct.map pyRound4,
    Price_vs_MA7 := r.Price_vs_MA7.map pyRound4, Price_vs_MA30 := r.Price_vs_MA30.map pyRound4,
    Volume_MA_7 := r.Volume_MA_7.map pyRound4, Volume_Trend := r.Volume_Trend.map pyRound4,
    RSI_14 := r.RSI_14.map pyRound4 }

def serializeRecord4 (r : TRec) : TRec :=
  { r with
    Sector_Relative_Performance := r.Sector_Relative_Performance.map pyRound4,
    Sector_Avg_Return := r.Sector_Avg_Return.map pyRound4,
    Industry_Relative_Performance := r.Industry_Relative_Performance.map pyRound4,
    Industry_Avg_Return := r.Industry_Avg_Return.map pyRound4,
    PE_vs_Sector_Avg := r.PE_vs_Sector_Avg.map pyRound4 }

def serializeRecord5 (r : TRec) : TRec :=
  { r with
    Max_Drawdown := r.Max_Drawdown.map pyRound4,
    Sharpe_Ratio := r.Sharpe_Ratio.map pyRound4,
    Value_at_Risk_5 := r.Value_at_Risk_5.map pyRound4,
    Return_Skewness := r.Return_Skewness.map pyRound4,
    Return_Kurtosis := r.Return_Kurtosis.map pyRound4 }

/-- All five stages together: every float value of the record dict passed
through `safe_float(·, 0.0)` — the stages touch disjoint fields and are
split only to keep elaboration linear. -/
def serializeRecord (r : TRec) : TRec :=
  serializeRecord5 (serializeRecord4 (serializeRecord3 (serializeRecord2 (serializeRecord1 r))))

/-- The body of the `try:` block of `transform_data` (lines 547–590);
the `raw_data`-presence and list-type checks precede this in Python and
are discharged by taking the already-extracted list. -/
def transformBody (cfg : TransformConfig) (now : String) (raw : List RawRecord) :
    Except HTTPError TransformResult :=
  let cleaned := clean_and_standardize raw
  if cleaned.isEmpty = true then .error ⟨400, "No valid records after cleaning"⟩
  else
    let r1 := calculate_basic_metrics cleaned
    let r2 := if cfg.enable_technical_indicators = true ∧ cfg.ma_short_period < r1.length
      then calculate_time_series_metrics cfg r1 else r1
    let r3 := if cfg.enable_sector_analysis = true then calculate_sector_analysis cfg r2 else r2
    let r4 := if cfg.enable_risk_metrics = true then calculate_risk_metrics cfg r3 else r3
    let safeData := (r4.map (stampMeta now)).map serializeRecord
    .ok { success := true, records_processed := safeData.length,
          records_cleaned := raw.length - safeData.length,
          data := safeData, timestamp := now }

instance {e a : Type} [DecidableEq e] [DecidableEq a] : DecidableEq (Except e a) := fun x y =>
  match x, y with
  | .ok u, .ok v =>
    if h : u = v then isTrue (by rw [h]) else isFalse (by intro hc; cases hc; exact h rfl)
  | .error u, .error v =>
    if h : u = v then isTrue (by rw [h]) else isFalse (by intro hc; cases hc; exact h rfl)
  | .ok _, .error _ => isFalse (by intro hc; cases hc)
  | .error _, .ok _ => isFalse (by intro hc; cases hc)

/-- `transform_data` (lines 544–593).  The `except Exception` wrapper
also catches the deliberately raised `HTTPException`s (FastAPI's
`HTTPException` derives from `Exception` and this endpoint has no
`except HTTPException: raise` clause, unlike `transform_batch`), so any
body error resurfaces as status 500 with detail
`"Transformation failed: " + str(e)`. -/
def transform_data (cfg : TransformConfig) (now : String) (raw : List RawRecord) :
    Except HTTPError TransformResult :=
  match transformBody cfg now raw with
  | .ok r => .ok r
  | .error e => .error ⟨500, "Transformation failed: " ++ httpStr e⟩

/-! ### Infrastructure lemmas -/

/-- A default record for `List.getD` indexing. -/
def dRec : TRec :=
  { Ticker := "", Date := "", Open := 0, High := 0, Low := 0, Close := 0,
    Volume := 0, Dividend := 0, industry := none, sector := none }

theorem getD_map {α β : Type} (f : α → β) (l : List α) (i : ℕ) (d : β) (d2 : α)
    (hi : i < l.length) : (l.map f).getD i d = f (l.getD i d2) := by
  induction l generalizing i with
  | nil => simp at hi
  | cons a l ih =>
    cases i with
    | zero => rfl
    | succ j => exact ih j (by simpa using hi)

theorem getD_mapIdx {α β : Type} (f : ℕ → α → β) (l : List α) (i : ℕ) (d : β) (d2 : α)
    (hi : i < l.length) : (List.mapIdx f l).getD i d = f i (l.getD i d2) := by
  induction l generalizing i f with
  | nil => simp at hi
  | cons a l ih =>
    rw [List.mapIdx_cons]
    cases i with
    | zero => rfl
    | succ j => exact ih (fun m => f (m+1)) j (by simpa using hi)

theorem exists_of_mem_mapIdx {α β : Type} {f : ℕ → α → β} {l : List α} {x : β}
    (h : x ∈ List.mapIdx f l) : ∃ i y, y ∈ l ∧ x = f i y := by
  induction l generalizing f with
  | nil => rw [List.mapIdx_nil] at h; cases h
  | cons a l ih =>
    rw [List.mapIdx_cons] at h
    rcases List.mem_cons.mp h with h | h
    · exact ⟨0, a, List.mem_cons_self a l, h⟩
    · rcases ih h with ⟨i, y, hy, hx⟩
      exact ⟨i + 1, y, List.mem_cons_of_mem a hy, hx⟩

theorem length_filterMap_of_isSome {α β : Type} {f : α → Option β} {l : List α}
    (h : ∀ a ∈ l, (f a).isSome = true) : (l.filterMap f).length = l.length := by
  induction l with
  | nil => rfl
  | cons a l ih =>
    have ha := h a (List.mem_cons_self a l)
    rcases Option.isSome_iff_exists.mp ha with ⟨b, hb⟩
    rw [List.filterMap_cons, hb]
    simp only [List.length_cons]
    rw [ih (fun a ha => h a (List.mem_cons_of_mem _ ha))]

theorem mem_firstKeys {l : List TRec} {k : String} :
    k ∈ firstKeys l ↔ ∃ r ∈ l, r.Ticker = k := by
  induction l with
  | nil => simp [firstKeys]
  | cons r rs ih =>
    simp only [firstKeys, List.mem_cons, List.mem_filter, bne_iff_ne]
    constructor
    · rintro (rfl | ⟨hk, _⟩)
      · exact ⟨r, Or.inl rfl, rfl⟩
      · rcases ih.mp hk with ⟨y, hy, hyk⟩
        exact ⟨y, Or.inr hy, hyk⟩
    · rintro ⟨y, hy | hy, hyk⟩
      · left; rw [← hyk, hy]
      · by_cases hkr : k = r.Ticker
        · left; exact hkr
        · right; exact ⟨ih.mpr ⟨y, hy, hyk⟩, hkr⟩

theorem nodup_firstKeys (l : List TRec) : (firstKeys l).Nodup := by
  induction l with
  | nil => exact List.nodup_nil
  | cons r rs ih =>
    refine List.Nodup.cons ?_ (List.Nodup.filter _ ih)
    intro hmem
    rcases List.mem_filter.mp hmem with ⟨_, hne⟩
    exact (bne_iff_ne.mp hne) rfl

theorem sum_group_lengths (l : List TRec) :
    ((firstKeys l).map (fun k => l.countP (fun r => r.Ticker == k))).sum = l.length := by
  induction l with
  | nil => simp [firstKeys]
  | cons r rs ih =>
    have hhead : (r :: rs).countP (fun x => x.Ticker == r.Ticker) =
        rs.countP (fun x => x.Ticker == r.Ticker) + 1 := by
      rw [List.countP_cons]
      simp
    have htail : ((firstKeys rs).filter (fun k => k != r.Ticker)).map
          (fun k => (r :: rs).countP (fun x => x.Ticker == k)) =
        ((firstKeys rs).filter (fun k => k != r.Ticker)).map
          (fun k => rs.countP (fun x => x.Ticker == k)) := by
      apply List.map_congr_left
      intro k hk
      rcases List.mem_filter.mp hk with ⟨_, hne⟩
      rw [List.countP_cons]
      have : (r.Ticker == k) = false := by
        simp only [beq_eq_false_iff_ne]
        exact fun hc => (bne_iff_ne.mp hne) hc.symm
      simp [this]
    simp only [firstKeys, List.map_cons, List.sum_cons, htail, hhead]
    by_cases hmem : r.Ticker ∈ firstKeys rs
    · have hperm : (firstKeys rs).Perm
          (r.Ticker :: ((firstKeys rs).filter (fun k => k != r.Ticker))) := by
        have h1 := List.perm_cons_erase hmem
        rwa [List.Nodup.erase_eq_filter (nodup_firstKeys rs) r.Ticker] at h1
      have hsum := (hperm.map (fun k => rs.countP (fun x => x.Ticker == k))).sum_eq
      rw [List.map_cons, List.sum_cons] at hsum
      rw [ih] at hsum
      simp only [List.length_cons]
      omega
    · have hfilter : (firstKeys rs).filter (fun k => k != r.Ticker) = firstKeys rs := by
        apply List.filter_eq_self.mpr
        intro k hk
        refine bne_iff_ne.mpr (fun hc => hmem ?_)
        rw [← hc]; exact hk
      have hzero : rs.countP (fun x => x.Ticker == r.Ticker) = 0 := by
        apply List.countP_eq_zero.mpr
        intro a ha hc
        exact hmem (mem_firstKeys.mpr ⟨a, ha, by simpa using hc⟩)
      rw [hfilter, ih, hzero]
      simp only [List.length_cons]
      omega

theorem length_tickerSeries (l : List TRec) (k : String) :
    (tickerSeries l k).length = l.countP (fun r => r.Ticker == k) := by
  rw [tickerSeries, length_pySort, ← List.countP_eq_length_filter]

theorem length_groupFlat (l : List TRec) (F : List TRec → List TRec)
    (hF : ∀ g, (F g).length = g.length) :
    ((firstKeys l).flatMap (fun k => F (tickerSeries l k))).length = l.length := by
  rw [List.length_flatMap]
  have hmap : List.map (List.length ∘ fun k => F (tickerSeries l k)) (firstKeys l) =
      (firstKeys l).map (fun k => l.countP (fun r => r.Ticker == k)) := by
    apply List.map_congr_left
    intro k _
    simp only [Function.comp]
    rw [hF, length_tickerSeries]
  rw [hmap, sum_group_lengths]

theorem length_tsEnrich (cfg : TransformConfig) (g : List TRec) :
    (tsEnrich cfg g).length = g.length := by
  rw [tsEnrich]
  split
  · exact List.length_map g tsNone
  · exact List.length_mapIdx

theorem length_riskGroup (g : List TRec) : (riskGroup g).length = g.length := by
  rw [riskGroup]
  split
  · exact List.length_map g riskNone
  · exact List.length_map g _

theorem length_ts_phase (cfg : TransformConfig) (l : List TRec) :
    (calculate_time_series_metrics cfg l).length = l.length :=
  length_groupFlat l _ (length_tsEnrich cfg)

theorem length_risk_phase (cfg : TransformConfig) (l : List TRec) :
    (calculate_risk_metrics cfg l).length = l.length := by
  rw [calculate_risk_metrics]
  split
  · rfl
  · exact length_groupFlat l _ length_riskGroup

theorem length_sector_phase (cfg : TransformConfig) (l : List TRec) :
    (calculate_sector_analysis cfg l).length = l.length := by
  rw [calculate_sector_analysis]
  split
  · rfl
  · exact List.length_map l _

/-- The validator-governed fields of a record. -/
def coreOf (x : TRec) : String × ℚ × ℚ × ℚ × ℚ × ℤ :=
  (x.Ticker, x.Open, x.High, x.Low, x.Close, x.Volume)

theorem coreOf_basicMetrics (y : TRec) : coreOf (basicMetrics y) = coreOf y := rfl

theorem coreOf_tsNone (y : TRec) : coreOf (tsNone y) = coreOf y := rfl

theorem coreOf_tsSet (cfg : TransformConfig) (g : List TRec) (i : ℕ) (y : TRec) :
    coreOf (tsSet cfg g i y) = coreOf y := rfl

theorem coreOf_sectorSet (l : List TRec) (y : TRec) : coreOf (sectorSet l y) = coreOf y := rfl

theorem coreOf_riskNone (y : TRec) : coreOf (riskNone y) = coreOf y := rfl

theorem coreOf_riskSet (g : List TRec) (y : TRec) : coreOf (riskSet g y) = coreOf y := by
  rw [riskSet]
  split <;> rfl

theorem coreOf_stampMeta (now : String) (y : TRec) : coreOf (stampMeta now y) = coreOf y := rfl

theorem coreOf_serializeRecord (y : TRec) :
    coreOf (serializeRecord y) =
      (y.Ticker, pyRound4 y.Open, pyRound4 y.High, pyRound4 y.Low, pyRound4 y.Close,
       y.Volume) := rfl

theorem mem_of_mem_tickerSeries {l : List TRec} {k : String} {y : TRec}
    (h : y ∈ tickerSeries l k) : y ∈ l := by
  rw [tickerSeries, mem_pySort] at h
  exact (List.mem_filter.mp h).1

theorem coreOf_mem_tsEnrich {cfg : TransformConfig} {g : List TRec} {x : TRec}
    (h : x ∈ tsEnrich cfg g) : ∃ y ∈ g, coreOf x = coreOf y := by
  rw [tsEnrich] at h
  split at h
  · rcases List.mem_map.mp h with ⟨y, hy, rfl⟩
    exact ⟨y, hy, coreOf_tsNone y⟩
  · rcases exists_of_mem_mapIdx h with ⟨i, y, hy, rfl⟩
    exact ⟨y, hy, coreOf_tsSet cfg g i y⟩

theorem coreOf_mem_riskGroup {g : List TRec} {x : TRec}
    (h : x ∈ riskGroup g) : ∃ y ∈ g, coreOf x = coreOf y := by
  rw [riskGroup] at h
  split at h
  · rcases List.mem_map.mp h with ⟨y, hy, rfl⟩
    exact ⟨y, hy, coreOf_riskNone y⟩
  · rcases List.mem_map.mp h with ⟨y, hy, rfl⟩
    exact ⟨y, hy, coreOf_riskSet g y⟩

theorem coreOf_mem_ts_phase {cfg : TransformConfig} {l : List TRec} {x : TRec}
    (h : x ∈ calculate_time_series_metrics cfg l) : ∃ y ∈ l, coreOf x = coreOf y := by
  rw [calculate_time_series_metrics] at h
  rcases List.mem_flatMap.mp h with ⟨k, _, hx⟩
  rcases coreOf_mem_tsEnrich hx with ⟨y, hy, hc⟩
  exact ⟨y, mem_of_mem_tickerSeries hy, hc⟩

theorem coreOf_mem_risk_phase {cfg : TransformConfig} {l : List TRec} {x : TRec}
    (h : x ∈ calculate_risk_metrics cfg l) : ∃ y ∈ l, coreOf x = coreOf y := by
  rw [calculate_risk_metrics] at h
  split at h
  · exact ⟨x, h, rfl⟩
  · rcases List.mem_flatMap.mp h with ⟨k, _, hx⟩
    rcases coreOf_mem_riskGroup hx with ⟨y, hy, hc⟩
    exact ⟨y, mem_of_mem_tickerSeries hy, hc⟩

theorem coreOf_mem_sector_phase {cfg : TransformConfig} {l : List TRec} {x : TRec}
    (h : x ∈ calculate_sector_analysis cfg l) : ∃ y ∈ l, coreOf x = coreOf y := by
  rw [calculate_sector_analysis] at h
  split at h
  · exact ⟨x, h, rfl⟩
  · rcases List.mem_map.mp h with ⟨y, hy, rfl⟩
    exact ⟨y, hy, coreOf_sectorSet l y⟩

theorem coreOf_mem_basic {l : List TRec} {x : TRec}
    (h : x ∈ calculate_basic_metrics l) : ∃ y ∈ l, coreOf x = coreOf y := by
  rcases List.mem_map.mp h with ⟨y, hy, rfl⟩
  exact ⟨y, hy, coreOf_basicMetrics y⟩

theorem cleanRecord_invariants {r : RawRecord} {c : TRec} (h : cleanRecord r = some c) :
    c.Low ≤ c.Open ∧ c.Open ≤ c.High ∧ c.Low ≤ c.Close ∧ c.Close ≤ c.High ∧
    0 ≤ c.Open ∧ 0 ≤ c.High ∧ 0 ≤ c.Low ∧ 0 ≤ c.Close ∧ 0 ≤ c.Volume ∧
    tickerMatch c.Ticker = true := by
  rw [cleanRecord] at h
  repeat' split at h
  all_goals try exact Option.noConfusion h
  injection h with h
  subst h
  simp only [not_or, not_lt, not_le, Decidable.not_not, Bool.not_eq_false] at *
  refine ⟨pyRound4_mono (by tauto), pyRound4_mono (by tauto), pyRound4_mono (by tauto),
    pyRound4_mono (by tauto), pyRound4_nonneg (le_of_lt (by tauto)),
    pyRound4_nonneg (le_of_lt (by tauto)), pyRound4_nonneg (le_of_lt (by tauto)),
    pyRound4_nonneg (le_of_lt (by tauto)), by tauto, by tauto⟩

theorem transform_ok_spec {cfg : TransformConfig} {now : String} {raw : List RawRecord}
    {res : TransformResult} (h : transform_data cfg now raw = .ok res) :
    res.success = true ∧ res.timestamp = now ∧
    res.records_processed = res.data.length ∧
    res.records_cleaned = raw.length - res.data.length ∧
    res.data.length = (clean_and_standardize raw).length ∧
    (∀ x ∈ res.data, ∃ c ∈ clean_and_standardize raw,
      x.Ticker = c.Ticker ∧ x.Open = pyRound4 c.Open ∧ x.High = pyRound4 c.High ∧
      x.Low = pyRound4 c.Low ∧ x.Close = pyRound4 c.Close ∧ x.Volume = c.Volume) := by
  rw [transform_data] at h
  split at h
  case h_2 => exact absurd h (by simp)
  case h_1 r1 heq =>
    injection h with h
    subst h
    rw [transformBody] at heq
    split at heq
    · exact absurd heq (by simp)
    · injection heq with heq
      subst heq
      refine ⟨rfl, rfl, rfl, rfl, ?_, ?_⟩
      · -- length bookkeeping through the phases
        simp only [List.length_map]
        split
        · rw [length_risk_phase]
          split
          · rw [length_sector_phase]
            split
            · rw [length_ts_phase]
              exact List.length_map _ _
            · exact List.length_map _ _
          · split
            · rw [length_ts_phase]
              exact List.length_map _ _
            · exact List.length_map _ _
        · split
          · rw [length_sector_phase]
            split
            · rw [length_ts_phase]
              exact List.length_map _ _
            · exact List.length_map _ _
          · split
            · rw [length_ts_phase]
              exact List.length_map _ _
            · exact List.length_map _ _
      · -- core-field tracing through the phases
        intro x hx
        rcases List.mem_map.mp hx with ⟨y, hy, rfl⟩
        rcases List.mem_map.mp hy with ⟨z, hz, rfl⟩
        have hz4 : ∃ c ∈ calculate_basic_metrics (clean_and_standardize raw),
            coreOf z = coreOf c := by
          revert hz
          split
          · intro hz
            rcases coreOf_mem_risk_phase hz with ⟨y3, hy3, hc3⟩
            revert hy3
            split
            · intro hy3
              rcases coreOf_mem_sector_phase hy3 with ⟨y2, hy2, hc2⟩
              revert hy2
              split
              · intro hy2
                rcases coreOf_mem_ts_phase hy2 with ⟨y1, hy1, hc1⟩
                exact ⟨y1, hy1, by rw [hc3, hc2, hc1]⟩
              · intro hy2
                exact ⟨y2, hy2, by rw [hc3, hc2]⟩
            · intro hy3
              revert hy3
              split
              · intro hy3
                rcases coreOf_mem_ts_phase hy3 with ⟨y1, hy1, hc1⟩
                exact ⟨y1, hy1, by rw [hc3, hc1]⟩
              · intro hy3
                exact ⟨y3, hy3, by rw [hc3]⟩
          · intro hz
            revert hz
            split
            · intro hz
              rcases coreOf_mem_sector_phase hz with ⟨y2, hy2, hc2⟩
              revert hy2
              split
              · intro hy2
                rcases coreOf_mem_ts_phase hy2 with ⟨y1, hy1, hc1⟩
                exact ⟨y1, hy1, by rw [hc2, hc1]⟩
              · intro hy2
                exact ⟨y2, hy2, by rw [hc2]⟩
            · intro hz
              revert hz
              split
              · intro hz
                rcases coreOf_mem_ts_phase hz with ⟨y1, hy1, hc1⟩
                exact ⟨y1, hy1, by rw [hc1]⟩
              · intro hz
                exact ⟨z, hz, rfl⟩
        rcases hz4 with ⟨c1, hc1m, hzc⟩
        rcases List.mem_map.mp hc1m with ⟨c, hcm, rfl⟩
        refine ⟨c, hcm, ?_⟩
        have h1 : coreOf (serializeRecord (stampMeta now z)) =
            (z.Ticker, pyRound4 z.Open, pyRound4 z.High, pyRound4 z.Low, pyRound4 z.Close,
             z.Volume) := rfl
        have h2 : coreOf z = coreOf c := by rw [hzc, coreOf_basicMetrics]
        have hT : z.Ticker = c.Ticker := congrArg (fun t => t.1) h2
        have hO : z.Open = c.Open := congrArg (fun t => t.2.1) h2
        have hH : z.High = c.High := congrArg (fun t => t.2.2.1) h2
        have hL : z.Low = c.Low := congrArg (fun t => t.2.2.2.1) h2
        have hC : z.Close = c.Close := congrArg (fun t => t.2.2.2.2.1) h2
        have hV : z.Volume = c.Volume := congrArg (fun t => t.2.2.2.2.2) h2
        have e1 : (serializeRecord (stampMeta now z)).Ticker = z.Ticker := rfl
        have e2 : (serializeRecord (stampMeta now z)).Open = pyRound4 z.Open := rfl
        have e3 : (serializeRecord (stampMeta now z)).High = pyRound4 z.High := rfl
        have e4 : (serializeRecord (stampMeta now z)).Low = pyRound4 z.Low := rfl
        have e5 : (serializeRecord (stampMeta now z)).Close = pyRound4 z.Close := rfl
        have e6 : (serializeRecord (stampMeta now z)).Volume = z.Volume := rfl
        rw [e1, e2, e3, e4, e5, e6, hT, hO, hH, hL, hC, hV]
        exact ⟨rfl, rfl, rfl, rfl, rfl, rfl⟩

/-! ### Concrete sample inputs used by witnesses and counterexamples -/

/-- The first record of the repository's own test batch
(`tests/transform_tests/test_transform_json.py`). -/
def aaplRaw : RawRecord :=
  { Ticker := some "AAPL", Date := some "2024-01-01",
    Open := some (.num 150), High := some (.num 155), Low := some (.num 149),
    Close := some (.num 154), Volume := some (.num 1000000), Dividend := some (.num 0),
    sector := some (some "Technology"), industry := some (some "Technology"),
    marketCap := some 3000000000000, trailingPE := some (mkRat 255 10), forwardPE := some 22,
    dividendYield := some (mkRat 5 10), averageVolume := some 50000000 }

/-- A raw record with every key absent: rejected by the validator. -/
def emptyRaw : RawRecord := {}

/-- A record whose four prices are `0.00001`: strictly positive, so the
validator accepts it, but the 4-decimal rounding sends them to `0.0`. -/
def tinyRaw : RawRecord :=
  { Ticker := some "A", Date := some "2024-01-01",
    Open := some (.num (mkRat 1 100000)), High := some (.num (mkRat 1 100000)),
    Low := some (.num (mkRat 1 100000)), Close := some (.num (mkRat 1 100000)),
    Volume := some (.num 1) }

/-- `aaplRaw` with the `sector` and `industry` keys absent. -/
def noSectorRaw : RawRecord := { aaplRaw with sector := none, industry := none }

/-- A minimal valid raw record for ticker `AAPL` at date `d` with
`Open = o`, `Close = c` (`o ≤ c`), `Low = o`, `High = c`. -/
def aaplRawAt (d : String) (o c : ℚ) : RawRecord :=
  { Ticker := some "AAPL", Date := some d,
    Open := some (.num o), High := some (.num c), Low := some (.num o),
    Close := some (.num c), Volume := some (.num 100) }

/-- Three consecutive valid records of one ticker. -/
def batch3 : List RawRecord :=
  [aaplRawAt "2024-01-01" 100 101, aaplRawAt "2024-01-02" 101 102,
   aaplRawAt "2024-01-03" 102 103]

/-- An already-cleaned record at date `d` with all prices `c` and
`Daily_Return` stamped to `dr` (as `calculate_basic_metrics` would). -/
def mkRec (d : String) (c dr : ℚ) : TRec :=
  { Ticker := "AAPL", Date := d, Open := c, High := c, Low := c, Close := c,
    Volume := 100, Dividend := 0, industry := some "", sector := some "",
    Daily_Return := some dr }

/-- A constant-price series of length 7. -/
def constG7 : List TRec :=
  [mkRec "2024-01-01" 154 0, mkRec "2024-01-02" 154 0, mkRec "2024-01-03" 154 0,
   mkRec "2024-01-04" 154 0, mkRec "2024-01-05" 154 0, mkRec "2024-01-06" 154 0,
   mkRec "2024-01-07" 154 0]

/-- A strictly increasing 14-day series. -/
def monoG14 : List TRec :=
  (List.range 14).map (fun i => mkRec (toString i) (qadd 100 (qint i)) 0)

/-- A 5-record series with well-defined daily returns. -/
def g5 : List TRec :=
  [mkRec "2024-01-01" 100 1, mkRec "2024-01-02" 101 2, mkRec "2024-01-03" 102 1,
   mkRec "2024-01-04" 103 3, mkRec "2024-01-05" 104 1]

/-! ### Claims -/

/-- C1 (counterexample): a `NaN` float reaching `ensure_json_serializable`
is emitted as the float `0.0` — a substitute number — not as `null` as the
claim states. -/
theorem C1_counterexample :
    ensure_json_serializable (.jfloat .nan) = .jfloat (.fin 0) ∧
    ensure_json_serializable (.jfloat .nan) ≠ .jnull := by
  constructor
  · rw [ensure_json_serializable]
    rfl
  · rw [ensure_json_serializable]
    exact fun hc => JData.noConfusion hc

/-- C1 (amended): in the final Numeric Safety Layer pass, a float that is
`NaN` or `±inf` is emitted as the float `0.0` (the layer's float default),
never as `null`; every finite float is rounded to 4 decimal places. -/
theorem C1_amended (q : ℚ) :
    ensure_json_serializable (.jfloat .nan) = .jfloat (.fin 0) ∧
    ensure_json_serializable (.jfloat .pinf) = .jfloat (.fin 0) ∧
    ensure_json_serializable (.jfloat .ninf) = .jfloat (.fin 0) ∧
    ensure_json_serializable (.jfloat (.fin q)) = .jfloat (.fin (pyRound4 q)) := by
  refine ⟨?_, ?_, ?_, ?_⟩ <;> rw [ensure_json_serializable] <;> rfl

/-- C2 (counterexample): a batch with one rejected and one accepted record
yields a response whose only rejection signal is the numeric
`records_cleaned` count; the response object has no `record_errors` key at
all, so the claimed non-empty `record_errors` list does not exist. -/
theorem C2_counterexample :
    "record_errors" ∉ transformResponseKeys ∧
    (transform_data defaultConfig "TS" [emptyRaw, aaplRaw]).map
      (fun res => (res.success, res.records_cleaned, res.data.length)) =
      .ok (true, 1, 1) := by
  constructor
  · decide
  · decide

/-- C2 (amended): the transform returns no `record_errors` sequence; the
only information about rejected records is the numeric `records_cleaned`
count (input size minus output size), while every record that passes
validation is still processed into the output. -/
theorem C2_amended (cfg : TransformConfig) (now : String) (raw : List RawRecord)
    (h : (clean_and_standardize raw).isEmpty = false) :
    ∃ res, transform_data cfg now raw = .ok res ∧
      res.success = true ∧
      res.records_cleaned = raw.length - res.data.length ∧
      res.records_processed = res.data.length ∧
      res.data.length = (clean_and_standardize raw).length ∧
      "record_errors" ∉ transformResponseKeys := by
  have hok : transform_data cfg now raw =
      .ok ((transformBody cfg now raw).toOption.getD
        { success := true, records_processed := 0, records_cleaned := 0,
          data := [], timestamp := now }) := by
    rw [transform_data, transformBody]
    rw [if_neg (by rw [h]; exact Bool.false_ne_true)]
    rfl
  refine ⟨_, hok, ?_⟩
  have hs := transform_ok_spec hok
  exact ⟨hs.1, hs.2.2.2.1, hs.2.2.1, hs.2.2.2.2.1, by decide⟩

theorem C2_witness :
    ∃ res, transform_data defaultConfig "TS" [emptyRaw, aaplRaw] = .ok res ∧
      res.success = true ∧
      res.records_cleaned = 2 - res.data.length ∧
      res.records_processed = res.data.length ∧
      res.data.length = (clean_and_standardize [emptyRaw, aaplRaw]).length ∧
      "record_errors" ∉ transformResponseKeys :=
  C2_amended defaultConfig "TS" [emptyRaw, aaplRaw] (by decide)

/-- C7 (code_bug): when every record is rejected, the deliberately raised
HTTP 400 "No valid records after cleaning" is swallowed by the endpoint's
blanket `except Exception` and resurfaces as an HTTP 500 internal fault —
not as the structured "no valid data" error the claim (and the code's own
`raise HTTPException(400, ...)`) intends. -/
theorem C7_bug :
    transform_data defaultConfig "TS" [emptyRaw] =
      .error ⟨500, "Transformation failed: 400: No valid records after cleaning"⟩ := by
  decide

/-- C10: a raw record whose `Dividend` key is present but `null` is
dropped entirely by the validator — even when the same record with
`Dividend` absent is accepted (in which case the documented default `0`
is applied). -/
theorem C10_thm (r : RawRecord)
    (h : (cleanRecord { r with Dividend := none }).isSome = true) :
    clean_and_standardize [{ r with Dividend := some JNum.null }] = [] ∧
    (cleanRecord { r with Dividend := none }).map (fun c => c.Dividend) = some 0 := by
  obtain ⟨tk, dt, op, hi2, lo, cl, vol, dv, sec, ind, mc, tp, fp, dy, dr2, av, pc⟩ := r
  rw [cleanRecord] at h
  repeat' split at h
  all_goals try simp at h
  constructor <;>
    simp_all [clean_and_standardize, cleanRecord, pyFloat, List.filterMap]

theorem C10_witness :
    clean_and_standardize [{ aaplRaw with Dividend := some JNum.null }] = [] ∧
    (cleanRecord { aaplRaw with Dividend := none }).map (fun c => c.Dividend) = some 0 := by
  have := C10_thm aaplRaw (by decide)
  exact this

/-- Forgets the wall-clock-dependent `transformation_timestamp` stamp. -/
def eraseStamp (r : TRec) : TRec := { r with transformation_timestamp := none }

/-- Forgets both wall-clock-dependent outputs of `transform_data` (the
per-record stamp and the response `timestamp`). -/
def eraseResult : Except HTTPError TransformResult → Except HTTPError TransformResult
  | .error e => .error e
  | .ok r => .ok { r with timestamp := "", data := r.data.map eraseStamp }

theorem eraseStamp_serialize_stamp (t : String) (y : TRec) :
    eraseStamp (serializeRecord (stampMeta t y)) =
      eraseStamp (serializeRecord (stampMeta "" y)) := rfl

/-- C3 (counterexample): two invocations on identical records and config
at different wall-clock instants give different outputs — the stamped
`transformation_timestamp` (and response `timestamp`) differ. -/
theorem C3_counterexample :
    transform_data defaultConfig "2024-01-01T00:00:00+00:00" [aaplRaw] ≠
      transform_data defaultConfig "2024-01-01T00:00:01+00:00" [aaplRaw] := by
  decide

/-- C3 (amended): the transform is deterministic in its records and
config — two invocations agree bit-for-bit on everything except the
wall-clock-derived `transformation_timestamp` stamps and response
`timestamp`; those fields are the only nondeterministic output. -/
theorem C3_amended (cfg : TransformConfig) (raw : List RawRecord) (t1 t2 : String) :
    eraseResult (transform_data cfg t1 raw) = eraseResult (transform_data cfg t2 raw) := by
  have hdata : ∀ (l : List TRec) (t : String),
      ((l.map (stampMeta t)).map serializeRecord).map eraseStamp =
        ((l.map (stampMeta "")).map serializeRecord).map eraseStamp := by
    intro l t
    simp only [List.map_map]
    apply List.map_congr_left
    intro y _
    exact eraseStamp_serialize_stamp t y
  rw [transform_data, transform_data, transformBody, transformBody]
  by_cases h : (clean_and_standardize raw).isEmpty = true
  · rw [if_pos h, if_pos h]
  · rw [if_neg h, if_neg h]
    simp only [eraseResult]
    congr 1
    rw [TransformResult.mk.injEq]
    refine ⟨rfl, ?_, ?_, ?_, rfl⟩
    · simp only [List.length_map]
    · simp only [List.length_map]
    · exact (hdata _ t1).trans (hdata _ t2).symm

/-- C6 (counterexample): a record with no `sector` attribute is grouped
under the empty-string sector and receives a non-null
`Sector_Relative_Performance` (its own deviation from the group mean,
here `0`) and a non-null `Sector_Avg_Return` — not the `null` the claim
states. -/
theorem C6_counterexample :
    (transform_data defaultConfig "TS" [noSectorRaw]).map
        (fun res => res.data.map
          (fun x => (x.Sector_Relative_Performance, x.Sector_Avg_Return))) =
      .ok [(some 0, some (mkRat 26667 10000))] ∧
    some (0 : ℚ) ≠ none := by
  exact ⟨by decide, by simp⟩

/-- C6 (amended): a record whose raw `sector` is missing is cleaned to
the empty-string sector, which is different from the only excluded group
key `"Unknown"`; it therefore contributes its `Daily_Return` to the
empty-string group mean and receives non-null `Sector_Relative_Performance`
and `Sector_Avg_Return`.  Only a record whose sector is literally the
string `"Unknown"` (or whose `Daily_Return` is null) is excluded and
nulled. -/
theorem C6_amended (cfg : TransformConfig) (hcfg : cfg.enable_sector_analysis = true)
    (l : List TRec) (r : TRec) (hr : r ∈ l) :
    sectorSet l r ∈ calculate_sector_analysis cfg l ∧
    (r.sector = some "Unknown" →
      (sectorSet l r).Sector_Relative_Performance = none ∧
      (sectorSet l r).Sector_Avg_Return = none) ∧
    (∀ d, r.Daily_Return = some d → r.sector = some "" →
      d ∈ groupContributions (fun x => x.sector) l (some "") ∧
      (sectorSet l r).Sector_Relative_Performance.isSome = true ∧
      (sectorSet l r).Sector_Avg_Return.isSome = true) := by
  refine ⟨?_, ?_, ?_⟩
  · rw [calculate_sector_analysis, if_neg (by rw [hcfg]; simp)]
    exact List.mem_map_of_mem _ hr
  · intro hsec
    have hgc : groupContributions (fun x => x.sector) l (some "Unknown") = [] := by
      rw [groupContributions, if_pos rfl]
    have hga : groupAvg (fun x => x.sector) l (some "Unknown") = none := by
      rw [groupAvg, hgc]
      rfl
    constructor <;> simp [sectorSet, hsec, hga]
  · intro d hd hsec
    have hmem : d ∈ groupContributions (fun x => x.sector) l (some "") := by
      rw [groupContributions, if_neg (by simp)]
      refine List.mem_filterMap.mpr ⟨r, hr, ?_⟩
      rw [hsec, if_pos rfl, hd]
    have hne : (groupContributions (fun x => x.sector) l (some "")).isEmpty = false := by
      cases hgc : groupContributions (fun x => x.sector) l (some "") with
      | nil => rw [hgc] at hmem; cases hmem
      | cons a as => rfl
    have hga : groupAvg (fun x => x.sector) l (some "") =
        some (qmean (groupContributions (fun x => x.sector) l (some ""))) := by
      rw [groupAvg]
      simp only [hne]
      rfl
    refine ⟨hmem, ?_, ?_⟩ <;> simp [sectorSet, hsec, hd, hga]

theorem C6_witness :
    sectorSet [mkRec "2024-01-01" 154 0] (mkRec "2024-01-01" 154 0) ∈
      calculate_sector_analysis defaultConfig [mkRec "2024-01-01" 154 0] ∧
    ((mkRec "2024-01-01" 154 0).sector = some "Unknown" →
      (sectorSet [mkRec "2024-01-01" 154 0] (mkRec "2024-01-01" 154 0)).Sector_Relative_Performance = none ∧
      (sectorSet [mkRec "2024-01-01" 154 0] (mkRec "2024-01-01" 154 0)).Sector_Avg_Return = none) ∧
    (∀ d, (mkRec "2024-01-01" 154 0).Daily_Return = some d →
      (mkRec "2024-01-01" 154 0).sector = some "" →
      d ∈ groupContributions (fun x => x.sector) [mkRec "2024-01-01" 154 0] (some "") ∧
      (sectorSet [mkRec "2024-01-01" 154 0] (mkRec "2024-01-01" 154 0)).Sector_Relative_Performance.isSome = true ∧
      (sectorSet [mkRec "2024-01-01" 154 0] (mkRec "2024-01-01" 154 0)).Sector_Avg_Return.isSome = true) :=
  C6_amended defaultConfig rfl [mkRec "2024-01-01" 154 0] (mkRec "2024-01-01" 154 0)
    (by decide)

theorem window_subset {xs : List ℚ} {w i : ℕ} {x : ℚ} (h : x ∈ window xs w i) : x ∈ xs :=
  List.mem_of_mem_take (List.mem_of_mem_drop h)

theorem window_length {xs : List ℚ} {w i : ℕ} (hi : i < xs.length) :
    (window xs w i).length = (i + 1) - (i + 1 - w) := by
  rw [window, List.length_drop, List.length_take]
  congr 1
  omega

theorem window_ne_nil {xs : List ℚ} {w i : ℕ} (hi : i < xs.length) (hw : 1 ≤ w) :
    window xs w i ≠ [] := by
  have hl := @window_length xs w i hi
  intro hc
  rw [hc] at hl
  simp at hl
  omega

theorem qmean_const {l : List ℚ} {c : ℚ} (h : ∀ x ∈ l, x = c) (hne : l ≠ []) :
    qmean l = c := by
  have hpos : 0 < l.length := List.length_pos.mpr hne
  have hq : ((l.length : ℚ)) ≠ 0 := by positivity
  rw [qmean, qdiv_eq, qsum_eq, qint_eq, List.sum_eq_card_nsmul l c h, nsmul_eq_mul]
  push_cast
  field_simp

/-- C4 (counterexample): a single-record batch has a constant-price series
of length 1, yet its output `MA_7` is null/absent (the whole time-series
phase is skipped for batches of at most `ma_short_period` records), not
the constant price the claim requires. -/
theorem C4_counterexample :
    (transform_data defaultConfig "TS" [aaplRaw]).map
      (fun res => res.data.map (fun x => x.MA_7)) = .ok [(none : Option ℚ)] ∧
    (none : Option ℚ) ≠ some 154 := by
  exact ⟨by decide, by simp⟩

/-- C4 (amended): within the per-ticker time-series engine, `MA_7` over a
constant-price series equals that constant (rounded to 4 decimals) at
every position — but only when the series has at least `ma_short_period`
(7) records; shorter series get `null`, and batches of at most 7 records
skip the phase entirely so the field stays absent. -/
theorem C4_amended (g : List TRec) (c : ℚ) (hc : ∀ r ∈ g, r.Close = c)
    (i : ℕ) (hi : i < g.length) :
    ((tsEnrich defaultConfig g).getD i dRec).MA_7 =
      if g.length < 7 then none else some (pyRound4 c) := by
  rw [tsEnrich]
  by_cases hlen : g.length < 7
  · rw [if_pos (show g.length < defaultConfig.ma_short_period from hlen),
      getD_map _ _ _ _ dRec hi, if_pos hlen]
    rfl
  · rw [if_neg (show ¬g.length < defaultConfig.ma_short_period from hlen),
      getD_mapIdx _ _ _ _ dRec hi, if_neg hlen]
    show ma7Col defaultConfig (closesOf g) i = some (pyRound4 c)
    rw [ma7Col]
    have hmean : qmean (window (closesOf g) defaultConfig.ma_short_period i) = c := by
      apply qmean_const
      · intro x hx
        rcases List.mem_map.mp (window_subset hx) with ⟨r, hr, rfl⟩
        exact hc r hr
      · exact window_ne_nil (by rw [closesOf, List.length_map]; exact hi) (by decide)
    rw [hmean]

theorem C4_witness :
    ((tsEnrich defaultConfig constG7).getD 0 dRec).MA_7 = some (pyRound4 154) := by
  have h := C4_amended constG7 154 (by decide) 0 (by decide)
  rw [if_neg (by decide)] at h
  exact h

theorem chain'_getD {R : ℚ → ℚ → Prop} {l : List ℚ} (hc : List.Chain' R l) {m : ℕ}
    (h1 : 1 ≤ m) (h2 : m < l.length) : R (l.getD (m - 1) 0) (l.getD m 0) := by
  obtain ⟨m', rfl⟩ : ∃ m', m = m' + 1 := ⟨m - 1, by omega⟩
  have h := List.chain'_iff_get.mp hc m' (by omega)
  have e1 : l.getD (m' + 1 - 1) 0 = l.get ⟨m', by omega⟩ := by
    rw [show m' + 1 - 1 = m' from rfl, List.getD_eq_getElem l 0 (by omega)]
    rfl
  have e2 : l.getD (m' + 1) 0 = l.get ⟨m' + 1, by omega⟩ := by
    rw [List.getD_eq_getElem l 0 (by omega)]
    rfl
  rw [e1, e2]
  exact h

theorem gainAt_nonneg (cs : List ℚ) (i : ℕ) : 0 ≤ gainAt cs i := by
  rw [gainAt]
  split
  · exact le_refl 0
  · split
    · exact le_of_lt (by assumption)
    · exact le_refl 0

theorem lossAt_nonneg (cs : List ℚ) (i : ℕ) : 0 ≤ lossAt cs i := by
  rw [lossAt]
  split
  · exact le_refl 0
  · split
    · rw [qsub_eq]
      linarith [show diffAt cs i < 0 from by assumption]
    · exact le_refl 0

theorem avgLoss_eq_zero {cs : List ℚ} {i : ℕ} (p : ℕ)
    (hpos : ∀ m, 1 ≤ m → m < cs.length → 0 < diffAt cs m) (hi : i < cs.length) :
    avgLoss p cs i = 0 := by
  rw [avgLoss, qdiv_eq, qsum_eq]
  have hz : ∀ x ∈ (List.range p).map (fun j => lossAt cs (i - j)), x = 0 := by
    intro x hx
    rcases List.mem_map.mp hx with ⟨j, _, rfl⟩
    rw [lossAt]
    split
    · rfl
    · rw [if_neg (not_lt.mpr (le_of_lt (hpos (i - j) (by omega) (by omega))))]
  rw [List.sum_eq_zero hz, zero_div]

theorem avgGain_eq_zero {cs : List ℚ} {i : ℕ} (p : ℕ)
    (hneg : ∀ m, 1 ≤ m → m < cs.length → diffAt cs m < 0) (hi : i < cs.length) :
    avgGain p cs i = 0 := by
  rw [avgGain, qdiv_eq, qsum_eq]
  have hz : ∀ x ∈ (List.range p).map (fun j => gainAt cs (i - j)), x = 0 := by
    intro x hx
    rcases List.mem_map.mp hx with ⟨j, _, rfl⟩
    rw [gainAt]
    split
    · rfl
    · rw [if_neg (not_lt.mpr (le_of_lt (hneg (i - j) (by omega) (by omega))))]
  rw [List.sum_eq_zero hz, zero_div]

theorem avgGain_pos {cs : List ℚ} {i : ℕ} {q : ℕ} (hg : 0 < gainAt cs i) :
    0 < avgGain (q + 1) cs i := by
  rw [avgGain, qdiv_eq, qsum_eq, qint_eq]
  apply div_pos
  · rw [List.range_succ_eq_map, List.map_cons, List.sum_cons, List.map_map]
    have hrest : 0 ≤ ((List.range q).map ((fun j => gainAt cs (i - j)) ∘ Nat.succ)).sum := by
      apply List.sum_nonneg
      intro x hx
      rcases List.mem_map.mp hx with ⟨j, _, rfl⟩
      exact gainAt_nonneg cs _
    have h0 : gainAt cs (i - 0) = gainAt cs i := by rw [Nat.sub_zero]
    rw [h0]
    linarith
  · push_cast
    positivity

theorem avgLoss_pos {cs : List ℚ} {i : ℕ} {q : ℕ} (hl : 0 < lossAt cs i) :
    0 < avgLoss (q + 1) cs i := by
  rw [avgLoss, qdiv_eq, qsum_eq, qint_eq]
  apply div_pos
  · rw [List.range_succ_eq_map, List.map_cons, List.sum_cons, List.map_map]
    have hrest : 0 ≤ ((List.range q).map ((fun j => lossAt cs (i - j)) ∘ Nat.succ)).sum := by
      apply List.sum_nonneg
      intro x hx
      rcases List.mem_map.mp hx with ⟨j, _, rfl⟩
      exact lossAt_nonneg cs _
    have h0 : lossAt cs (i - 0) = lossAt cs i := by rw [Nat.sub_zero]
    rw [h0]
    linarith
  · push_cast
    positivity

/-- C9: for a strictly monotonic close series, `RSI_14` is null on the
first 13 records of the ordered series and a finite value within
`[0, 100]` from the 14th record onward (`100` for strictly increasing —
the zero-average-loss case — and `0` for strictly decreasing). -/
theorem C9_thm (g : List TRec)
    (hmono : List.Chain' (· < ·) (closesOf g) ∨ List.Chain' (· > ·) (closesOf g))
    (i : ℕ) (hi : i < g.length) :
    (i < 13 → ((tsEnrich defaultConfig g).getD i dRec).RSI_14 = none) ∧
    (13 ≤ i → ∃ q, ((tsEnrich defaultConfig g).getD i dRec).RSI_14 = some q ∧
      0 ≤ q ∧ q ≤ 100) := by
  have hcs : (closesOf g).length = g.length := List.length_map _ _
  rw [tsEnrich]
  by_cases hlen : g.length < 7
  · rw [if_pos (show g.length < defaultConfig.ma_short_period from hlen),
      getD_map _ _ _ _ dRec hi]
    exact ⟨fun _ => rfl, fun h13 => absurd hi (by omega)⟩
  · rw [if_neg (show ¬g.length < defaultConfig.ma_short_period from hlen),
      getD_mapIdx _ _ _ _ dRec hi]
    constructor
    · intro h13
      show rsiCol defaultConfig g.length (closesOf g) i = none
      rw [rsiCol]
      by_cases h14 : g.length < 14
      · rw [if_pos (Or.inr (show g.length < defaultConfig.rsi_period from h14))]
      · rw [if_neg (show ¬(defaultConfig.enable_technical_indicators = false ∨
            g.length < defaultConfig.rsi_period) from by
              rintro (hc | hc)
              · exact Bool.noConfusion hc
              · exact h14 hc),
          if_pos (show i + 1 < defaultConfig.rsi_period from by
            show i + 1 < 14
            omega)]
    · intro h13
      have h14 : ¬g.length < 14 := by omega
      show ∃ q, rsiCol defaultConfig g.length (closesOf g) i = some q ∧ 0 ≤ q ∧ q ≤ 100
      rw [rsiCol,
        if_neg (show ¬(defaultConfig.enable_technical_indicators = false ∨
          g.length < defaultConfig.rsi_period) from by
            rintro (hc | hc)
            · exact Bool.noConfusion hc
            · exact h14 hc),
        if_neg (show ¬i + 1 < defaultConfig.rsi_period from by
          show ¬i + 1 < 14
          omega)]
      rcases hmono with hinc | hdec
      · have hdpos : ∀ m, 1 ≤ m → m < (closesOf g).length → 0 < diffAt (closesOf g) m := by
          intro m h1 h2
          rw [diffAt, qsub_eq, sub_pos]
          exact chain'_getD hinc h1 h2
        have hal : avgLoss defaultConfig.rsi_period (closesOf g) i = 0 :=
          avgLoss_eq_zero _ hdpos (by omega)
        have hag : ¬avgGain defaultConfig.rsi_period (closesOf g) i = 0 := by
          have hgi : 0 < gainAt (closesOf g) i := by
            rw [gainAt, if_neg (show ¬i = 0 by omega),
              if_pos (hdpos i (by omega) (by omega))]
            exact hdpos i (by omega) (by omega)
          have := @avgGain_pos (closesOf g) i 13 hgi
          exact fun hc => absurd (hc ▸ this) (lt_irrefl 0)
        rw [if_pos hal, if_neg hag]
        exact ⟨100, rfl, by norm_num, le_refl 100⟩
      · have hdneg : ∀ m, 1 ≤ m → m < (closesOf g).length → diffAt (closesOf g) m < 0 := by
          intro m h1 h2
          rw [diffAt, qsub_eq, sub_neg]
          exact chain'_getD hdec h1 h2
        have hag : avgGain defaultConfig.rsi_period (closesOf g) i = 0 :=
          avgGain_eq_zero _ hdneg (by omega)
        have hal : ¬avgLoss defaultConfig.rsi_period (closesOf g) i = 0 := by
          have hli : 0 < lossAt (closesOf g) i := by
            rw [lossAt, if_neg (show ¬i = 0 by omega),
              if_pos (hdneg i (by omega) (by omega)), qsub_eq]
            linarith [hdneg i (by omega) (by omega)]
          have := @avgLoss_pos (closesOf g) i 13 hli
          exact fun hc => absurd (hc ▸ this) (lt_irrefl 0)
        rw [if_neg hal, hag]
        have hval : qsub 100 (qdiv 100 (qadd 1
            (qdiv 0 (avgLoss defaultConfig.rsi_period (closesOf g) i)))) = 0 := by
          rw [qdiv_eq, qadd_eq, qdiv_eq, qsub_eq]
          norm_num
        rw [hval]
        have h0 : pyRound4 0 = 0 := by
          have := pyRound4_intCast 0
          simpa using this
        rw [h0]
        exact ⟨0, rfl, le_refl 0, by norm_num⟩

theorem C9_witness :
    (13 < 13 → ((tsEnrich defaultConfig monoG14).getD 13 dRec).RSI_14 = none) ∧
    (13 ≤ 13 → ∃ q, ((tsEnrich defaultConfig monoG14).getD 13 dRec).RSI_14 = some q ∧
      0 ≤ q ∧ q ≤ 100) :=
  C9_thm monoG14
    (Or.inl (by
      have hcl : closesOf monoG14 =
          [100, 101, 102, 103, 104, 105, 106, 107, 108, 109, 110, 111, 112, 113] := by
        decide
      rw [hcl]
      simp only [List.chain'_cons, List.chain'_singleton, and_true]
      norm_num))
    13 (by decide)

theorem mem_riskReturns {g : List TRec} {x : ℚ} (hx : x ∈ riskReturns g) :
    ∃ r ∈ g, ∃ d, r.Daily_Return = some d ∧ x = qdiv d 100 := by
  rw [riskReturns] at hx
  rcases List.mem_map.mp hx with ⟨d, hd, rfl⟩
  rcases List.mem_filterMap.mp hd with ⟨r, hr, hrd⟩
  exact ⟨r, hr, d, hrd, rfl⟩

theorem length_riskReturns {g : List TRec} (h : ∀ r ∈ g, r.Daily_Return ≠ none) :
    (riskReturns g).length = g.length := by
  rw [riskReturns, List.length_map]
  apply length_filterMap_of_isSome
  intro r hr
  exact Option.ne_none_iff_isSome.mp (h r hr)

theorem optMin_cons_some_isSome (q : ℚ) (l : List (Option ℚ)) :
    (optMin (some q :: l)).isSome = true := by
  cases h : optMin l <;> simp [optMin, h]

/-- C5 (counterexample): a ticker series of length exactly 3 yields
`Return_Skewness = null` on each of its records — not a finite value as
the claim states — because the risk engine nulls all five fields for any
series shorter than 5. -/
theorem C5_counterexample :
    (transform_data defaultConfig "TS" batch3).map
      (fun res => res.data.map (fun x => x.Return_Skewness)) =
      .ok [none, none, none] ∧
    (none : Option ℚ).isSome = false := by
  exact ⟨by decide, rfl⟩

/-- C5 (amended): in the per-ticker risk engine, all five risk fields —
`Max_Drawdown`, `Sharpe_Ratio`, `Value_at_Risk_5`, `Return_Skewness` and
`Return_Kurtosis` — are null for series of length 3 or 4 (the `< 5` guard
precedes the per-statistic minimums), and all five become non-null at
length 5. -/
theorem C5_amended (g : List TRec)
    (hdr : ∀ r ∈ g, r.Daily_Return ≠ none ∧ -100 < r.Daily_Return.getD 0)
    (i : ℕ) (hi : i < g.length) :
    (g.length = 3 ∨ g.length = 4 →
      ((riskGroup g).getD i dRec).Max_Drawdown = none ∧
      ((riskGroup g).getD i dRec).Sharpe_Ratio = none ∧
      ((riskGroup g).getD i dRec).Value_at_Risk_5 = none ∧
      ((riskGroup g).getD i dRec).Return_Skewness = none ∧
      ((riskGroup g).getD i dRec).Return_Kurtosis = none) ∧
    (g.length = 5 →
      ((riskGroup g).getD i dRec).Max_Drawdown.isSome = true ∧
      ((riskGroup g).getD i dRec).Sharpe_Ratio.isSome = true ∧
      ((riskGroup g).getD i dRec).Value_at_Risk_5.isSome = true ∧
      ((riskGroup g).getD i dRec).Return_Skewness.isSome = true ∧
      ((riskGroup g).getD i dRec).Return_Kurtosis.isSome = true) := by
  constructor
  · intro hlen
    rw [riskGroup, if_pos (by omega), getD_map _ _ _ _ dRec hi]
    exact ⟨rfl, rfl, rfl, rfl, rfl⟩
  · intro hlen
    rw [riskGroup, if_neg (by omega), getD_map _ _ _ _ dRec hi]
    have hlenr : (riskReturns g).length = 5 := by
      rw [length_riskReturns (fun r hr => (hdr r hr).1), hlen]
    have hne : (riskReturns g).isEmpty = false := by
      cases hh : riskReturns g with
      | nil => rw [hh] at hlenr; simp at hlenr
      | cons a as => rfl
    rw [riskSet, if_neg (by rw [hne]; exact Bool.false_ne_true)]
    refine ⟨?_, rfl, rfl, ?_, ?_⟩
    · show ((optMin (drawdowns (riskReturns g))).map pyRound4).isSome = true
      obtain ⟨r1, rest, hrs⟩ : ∃ r1 rest, riskReturns g = r1 :: rest := by
        cases hh : riskReturns g with
        | nil => rw [hh] at hlenr; simp at hlenr
        | cons a as => exact ⟨a, as, rfl⟩
      have hr1 : qadd 1 r1 ≠ 0 := by
        have hr1m : r1 ∈ riskReturns g := by rw [hrs]; exact List.mem_cons_self r1 rest
        rcases mem_riskReturns hr1m with ⟨r, hr, d, hd, rfl⟩
        have hdlt : -100 < d := by
          have := (hdr r hr).2
          rwa [hd] at this
        rw [qadd_eq, qdiv_eq]
        intro hc
        have : (1 : ℚ) + d / 100 > 0 := by linarith
        rw [hc] at this
        exact lt_irrefl 0 this
      rw [hrs]
      show ((optMin (drawdowns (r1 :: rest))).map pyRound4).isSome = true
      rw [drawdowns]
      rw [if_neg hr1]
      cases hmin : optMin (some 0 :: drawdownAux rest (qadd 1 r1) (qadd 1 r1)) with
      | none =>
        have := optMin_cons_some_isSome 0 (drawdownAux rest (qadd 1 r1) (qadd 1 r1))
        rw [hmin] at this
        cases this
      | some m => rfl
    · rw [if_pos (by omega : 3 ≤ (riskReturns g).length)]
      rfl
    · rw [if_pos (by omega : 4 ≤ (riskReturns g).length)]
      rfl

theorem C5_witness :
    (g5.length = 3 ∨ g5.length = 4 →
      ((riskGroup g5).getD 0 dRec).Max_Drawdown = none ∧
      ((riskGroup g5).getD 0 dRec).Sharpe_Ratio = none ∧
      ((riskGroup g5).getD 0 dRec).Value_at_Risk_5 = none ∧
      ((riskGroup g5).getD 0 dRec).Return_Skewness = none ∧
      ((riskGroup g5).getD 0 dRec).Return_Kurtosis = none) ∧
    (g5.length = 5 →
      ((riskGroup g5).getD 0 dRec).Max_Drawdown.isSome = true ∧
      ((riskGroup g5).getD 0 dRec).Sharpe_Ratio.isSome = true ∧
      ((riskGroup g5).getD 0 dRec).Value_at_Risk_5.isSome = true ∧
      ((riskGroup g5).getD 0 dRec).Return_Skewness.isSome = true ∧
      ((riskGroup g5).getD 0 dRec).Return_Kurtosis.isSome = true) :=
  C5_amended g5 (by decide) 0 (by decide)

/-- C8 (counterexample): a record whose prices are all `0.00001` passes
the validator (prices are strictly positive), but the 4-decimal rounding
of the cleaning phase outputs `Open = 0.0`, so the enriched record
violates the claimed `price > 0` invariant. -/
theorem C8_counterexample :
    (transform_data defaultConfig "TS" [tinyRaw]).map
      (fun res => res.data.map (fun x => (x.Open, decide (0 < x.Open)))) =
      .ok [((0 : ℚ), false)] := by
  decide

/-- C8 (amended): every record of the enriched output satisfies
`Low ≤ Open ≤ High`, `Low ≤ Close ≤ High`, all four prices `≥ 0`
(positivity is checked before rounding, so a price below `0.00005` can
round to exactly `0`), `Volume ≥ 0`, and a ticker matching `[A-Z]{1,5}`;
every phase after validation preserves these relations (rounding is
monotone and preserves nonnegativity). -/
theorem C8_amended (cfg : TransformConfig) (now : String) (raw : List RawRecord)
    (res : TransformResult) (h : transform_data cfg now raw = .ok res)
    (x : TRec) (hx : x ∈ res.data) :
    x.Low ≤ x.Open ∧ x.Open ≤ x.High ∧ x.Low ≤ x.Close ∧ x.Close ≤ x.High ∧
    0 ≤ x.Open ∧ 0 ≤ x.High ∧ 0 ≤ x.Low ∧ 0 ≤ x.Close ∧ 0 ≤ x.Volume ∧
    tickerMatch x.Ticker = true := by
  rcases (transform_ok_spec h).2.2.2.2.2 x hx with ⟨c, hcm, hT, hO, hH, hL, hC, hV⟩
  rw [clean_and_standardize] at hcm
  rcases List.mem_filterMap.mp hcm with ⟨r, _, hr⟩
  rcases cleanRecord_invariants hr with
    ⟨i1, i2, i3, i4, i5, i6, i7, i8, i9, i10⟩
  rw [hT, hO, hH, hL, hC, hV]
  exact ⟨pyRound4_mono i1, pyRound4_mono i2, pyRound4_mono i3, pyRound4_mono i4,
    pyRound4_nonneg i5, pyRound4_nonneg i6, pyRound4_nonneg i7, pyRound4_nonneg i8,
    i9, i10⟩

theorem C8_witness :
    ∃ res, transform_data defaultConfig "TS" [aaplRaw] = .ok res ∧
      ∀ x ∈ res.data,
        x.Low ≤ x.Open ∧ x.Open ≤ x.High ∧ x.Low ≤ x.Close ∧ x.Close ≤ x.High ∧
        0 ≤ x.Open ∧ 0 ≤ x.High ∧ 0 ≤ x.Low ∧ 0 ≤ x.Close ∧ 0 ≤ x.Volume ∧
        tickerMatch x.Ticker = true :=
  ⟨_, rfl, fun x hx => C8_amended defaultConfig "TS" [aaplRaw] _ rfl x hx⟩
